import Mathlib

/-!
Verification of the `template-workflow-extract-basic` repository.

This file shallowly embeds the parts of the repository that the claims
touch:

* `src/extraction_review/testing_utils/_deterministic.py` — seeded
  synthetic-value generation (`generate_data_from_schema`,
  `_generate_value`, `generate_text_blob`, `hash_schema`,
  `combined_seed`, `fingerprint_file`, `is_valid_uuidv4`);
* `src/extraction_review/testing_utils/agent_data.py` — the in-memory
  agent-data store (`StoredAgentData.from_request_data`, `apply_filter`,
  create / search / delete handlers);
* `src/extraction_review/testing_utils/extract.py` — the fake extraction
  namespace (`_handle_stateless_run`, `_generate_run_data`, stub popping);
* `src/extraction_review/testing_utils/files.py` — the fake files
  namespace (`_handle_get_metadata`, `_build_file`);
* `src/extraction_review/testing_utils/server.py` — route registration
  (`add_route`, `_compile_regex`) together with a small regular-expression
  semantics used to characterise the compiled route patterns;
* `src/extraction_review/config.py` — `create_union_schema`;
* `src/extraction_review/process_file.py` — exception dispatch of the
  workflow steps and `record_extracted_data`.

JSON values are modelled by the inductive type `JVal`.  Python dictionaries
are modelled as association lists in insertion order (Python dictionaries
preserve insertion order and have unique keys).  Python's `random.Random`
(a Mersenne twister) is modelled by a pure deterministic state machine
`PyRng`; every property proved below depends only on the generator being a
pure function of its seed, never on the concrete bit stream.  Operations
that can raise in Python are modelled in `Except String`.
-/

namespace ExtractionReview

/-- JSON values (the Python objects produced by `json.loads`): `null`,
booleans, integers, floats (modelled as rationals), strings, lists and
dictionaries (association lists in insertion order). -/
inductive JVal where
  | null : JVal
  | b : Bool → JVal
  | i : Int → JVal
  | f : Rat → JVal
  | s : String → JVal
  | arr : List JVal → JVal
  | obj : List (String × JVal) → JVal
deriving Repr

/-- A Python dictionary with `JVal` values: an association list in
insertion order with (by well-formedness) unique keys. -/
abbrev PyDict := List (String × JVal)

/-- `d.get(key)` on a Python dictionary: `None`-producing lookup. -/
def pyGet (d : PyDict) (key : String) : Option JVal :=
  match d.find? (fun kv => kv.1 = key) with
  | some kv => some kv.2
  | none => none

/-- `d.get(key, default)`. -/
def pyGetD (d : PyDict) (key : String) (dflt : JVal) : JVal :=
  (pyGet d key).getD dflt

/-- `key in d` on a Python dictionary. -/
def pyHasKey (d : PyDict) (key : String) : Bool :=
  d.any (fun kv => kv.1 = key)

/-! ## Python value semantics: `==`, ordering, `in`

`apply_filter` (agent_data.py) applies Python comparison operators to JSON
values.  Python `==` is total; `<`/`>`/`<=`/`>=` raise `TypeError` on
incomparable values; `in` raises on non-containers.  Booleans compare as
the numbers 0/1 (Python `bool` is an `int` subtype). -/

/-- Numeric view of a value: Python treats `bool`, `int` and `float`
uniformly in comparisons. -/
def pyNum : JVal → Option Rat
  | .b x => some (if x then 1 else 0)
  | .i n => some (n : Rat)
  | .f q => some q
  | _ => none

mutual

/-- Size of a JSON value, used to compute fuel bounds for the fuelled
recursions below (the derived `sizeOf` has no executable code for this
nested inductive). -/
def jsize : JVal → Nat
  | .null => 1
  | .b _ => 1
  | .i _ => 1
  | .f _ => 1
  | .s _ => 1
  | .arr xs => 1 + jsizeList xs
  | .obj xs => 1 + jsizePairs xs
termination_by structural v => v

/-- Size of a list of JSON values. -/
def jsizeList : List JVal → Nat
  | [] => 0
  | x :: xs => 1 + jsize x + jsizeList xs
termination_by structural l => l

/-- Size of an association list of JSON values. -/
def jsizePairs : List (String × JVal) → Nat
  | [] => 0
  | (_, v) :: xs => 1 + jsize v + jsizePairs xs
termination_by structural l => l

end

mutual

/-- Python `==` on JSON values, structurally recursive on a fuel bound
(the wrapper `pyEq` supplies fuel that always exceeds the recursion
depth, so the fuel-exhausted branch is never taken). -/
def pyEqF : Nat → JVal → JVal → Bool
  | 0, _, _ => false
  | fuel + 1, x, y =>
    match x, y with
    | .null, .null => true
    | .s a, .s b => a == b
    | .arr xs, .arr ys => pyEqListF fuel xs ys
    | .obj xs, .obj ys => (xs.length == ys.length) && pyEqObjAllF fuel xs ys
    | x, y =>
      match pyNum x, pyNum y with
      | some a, some b => a == b
      | _, _ => false
termination_by structural fuel _ _ => fuel

/-- Python `==` on lists: pointwise. -/
def pyEqListF : Nat → List JVal → List JVal → Bool
  | 0, _, _ => false
  | fuel + 1, xs, ys =>
    match xs, ys with
    | [], [] => true
    | x :: xs, y :: ys => pyEqF fuel x y && pyEqListF fuel xs ys
    | _, _ => false
termination_by structural fuel _ _ => fuel

/-- Python `==` on dictionaries: every key of the first is present in the
second with an equal value (lengths are compared by the caller). -/
def pyEqObjAllF : Nat → List (String × JVal) → List (String × JVal) → Bool
  | 0, _, _ => false
  | fuel + 1, xs, ys =>
    match xs with
    | [] => true
    | (k, v) :: rest =>
      (match ys.find? (fun kv => kv.1 = k) with
       | some kv => pyEqF fuel v kv.2
       | none => false) && pyEqObjAllF fuel rest ys
termination_by structural fuel _ _ => fuel

end

/-- Python `==` on JSON values (total).  The fuel bound strictly exceeds
the recursion depth of the equality test, which shrinks the combined
structure at every step. -/
def pyEq (x y : JVal) : Bool := pyEqF (jsize x + jsize y + 1) x y

mutual

/-- Python ordering comparison (`<` and friends); raises `TypeError` on
incomparable values (fuelled like `pyEqF`). -/
def pyCompareF : Nat → JVal → JVal → Except String Ordering
  | 0, _, _ => .error "fuel exhausted"
  | fuel + 1, x, y =>
    match x, y with
    | .s a, .s b => .ok (compare a b)
    | .arr xs, .arr ys => pyCompareListF fuel xs ys
    | x, y =>
      match pyNum x, pyNum y with
      | some a, some b => .ok (compare a b)
      | _, _ => .error "TypeError: values are not orderable"
termination_by structural fuel _ _ => fuel

/-- Python list ordering: skip `==`-equal heads, then compare the first
differing pair; ties broken by length. -/
def pyCompareListF : Nat → List JVal → List JVal → Except String Ordering
  | 0, _, _ => .error "fuel exhausted"
  | fuel + 1, xs, ys =>
    match xs, ys with
    | [], [] => .ok .eq
    | [], _ :: _ => .ok .lt
    | _ :: _, [] => .ok .gt
    | x :: xs, y :: ys =>
      if pyEq x y then pyCompareListF fuel xs ys else pyCompareF fuel x y
termination_by structural fuel _ _ => fuel

end

/-- Python ordering comparison with a sufficient fuel bound. -/
def pyCompare (x y : JVal) : Except String Ordering :=
  pyCompareF (jsize x + jsize y + 1) x y

/-- Substring test on strings (Python `needle in hay` for `str`). -/
def strContains (hay needle : String) : Bool :=
  hay.toList.tails.any (fun t => needle.toList.isPrefixOf t)

/-- Python `a in b`; raises `TypeError` when `b` is not a container or the
pairing is unsupported (list/dict membership keys must be hashable,
`in` on a string needs a string on the left). -/
def pyIn (a : JVal) : JVal → Except String Bool
  | .arr ys => .ok (ys.any (fun y => pyEq a y))
  | .s hay =>
    match a with
    | .s needle => .ok (strContains hay needle)
    | _ => .error "TypeError: 'in <string>' requires string as left operand"
  | .obj ys =>
    match a with
    | .arr _ => .error "TypeError: unhashable type"
    | .obj _ => .error "TypeError: unhashable type"
    | _ => .ok (ys.any (fun kv => pyEq (JVal.s kv.1) a))
  | _ => .error "TypeError: argument is not iterable"

/-! ## `apply_filter` (testing_utils/agent_data.py) -/

/-- The operator table of `apply_filter`. -/
def opNames : List String := ["gt", "gte", "lt", "lte", "eq", "ne", "in", "nin"]

/-- One operator application from the `ops` table of `apply_filter`. -/
def evalOp (op : String) (a b : JVal) : Except String Bool :=
  if op = "gt" then do
    let o ← pyCompare a b; .ok (o = .gt)
  else if op = "gte" then do
    let o ← pyCompare a b; .ok (o ≠ .lt)
  else if op = "lt" then do
    let o ← pyCompare a b; .ok (o = .lt)
  else if op = "lte" then do
    let o ← pyCompare a b; .ok (o ≠ .gt)
  else if op = "eq" then .ok (pyEq a b)
  else if op = "ne" then .ok (!pyEq a b)
  else if op = "in" then pyIn a b
  else if op = "nin" then do
    let r ← pyIn a b; .ok (!r)
  else .error "unknown operator"

/-- The inner loop of `apply_filter` over the entries of a dict-valued
condition: an operator outside the table short-circuits to `False`. -/
def applyFilterOps (dataVal : JVal) : List (String × JVal) → Except String Bool
  | [] => .ok true
  | (op, value) :: rest =>
    if op ∈ opNames then do
      let r ← evalOp op dataVal value
      if r then applyFilterOps dataVal rest else .ok false
    else .ok false

/-- One `(key, condition)` check of `apply_filter`: dict conditions run the
operator loop, anything else is a Python `!=` test. -/
def applyFilterCond (dataVal : JVal) (cond : JVal) : Except String Bool :=
  match cond with
  | .obj entries => applyFilterOps dataVal entries
  | c => .ok (pyEq dataVal c)

/-- `apply_filter(data, filters)` from agent_data.py: every filter key must
be present in `data` and its condition must hold. -/
def applyFilter (data : PyDict) : List (String × JVal) → Except String Bool
  | [] => .ok true
  | (key, cond) :: rest =>
    if pyHasKey data key then do
      let r ← applyFilterCond (pyGetD data key .null) cond
      if r then applyFilter data rest else .ok false
    else .ok false

/-- Does one operator application succeed and yield `True`? -/
def opHolds (op : String) (a b : JVal) : Bool :=
  match evalOp op a b with
  | .ok true => true
  | _ => false

/-- The claim's reading of a dict condition: every operator entry among
the eight table operators holds (entries outside the table unconstrained). -/
def condSpecLiteral (v : JVal) (entries : List (String × JVal)) : Bool :=
  entries.all fun e => if e.1 ∈ opNames then opHolds e.1 v e.2 else true

/-- Amended reading of a dict condition: every entry's operator is in the
table, and its comparison succeeds and holds. -/
def condSpecAmended (v : JVal) (entries : List (String × JVal)) : Bool :=
  entries.all fun e => decide (e.1 ∈ opNames) && opHolds e.1 v e.2

/-- Condition satisfaction per the claim: dict conditions go through the
given per-entry reading, anything else is a Python equality test. -/
def specCond (condLevel : JVal → List (String × JVal) → Bool) (v cond : JVal) : Bool :=
  match cond with
  | .obj entries => condLevel v entries
  | c => pyEq v c

/-- Filter satisfaction per the claim: every filter key is present in
`data` and its condition is satisfied. -/
def filterSpec (condLevel : JVal → List (String × JVal) → Bool)
    (data : PyDict) (filters : List (String × JVal)) : Bool :=
  filters.all fun e =>
    pyHasKey data e.1 && specCond condLevel (pyGetD data e.1 .null) e.2

theorem applyFilterOps_ok_true_iff (v : JVal) (entries : List (String × JVal)) :
    applyFilterOps v entries = .ok true ↔ condSpecAmended v entries = true := by
  induction entries with
  | nil => simp [applyFilterOps, condSpecAmended]
  | cons e rest ih =>
    obtain ⟨op, value⟩ := e
    by_cases hop : op ∈ opNames
    · cases hev : evalOp op v value with
      | error err =>
        simp [applyFilterOps, hop, hev, condSpecAmended, opHolds, Bind.bind, Except.bind]
      | ok r =>
        cases r with
        | false =>
          simp [applyFilterOps, hop, hev, condSpecAmended, opHolds, Bind.bind, Except.bind]
        | true =>
          simp only [applyFilterOps, hop, if_true, hev, Bind.bind, Except.bind, if_pos,
            condSpecAmended, List.all_cons, Bool.and_eq_true, decide_eq_true_eq]
          simp only [condSpecAmended] at ih
          simp [ih, hop, opHolds, hev]
    · simp [applyFilterOps, hop, condSpecAmended]

theorem applyFilterCond_ok_true_iff (v cond : JVal) :
    applyFilterCond v cond = .ok true ↔ specCond condSpecAmended v cond = true := by
  cases cond with
  | obj entries => simpa [applyFilterCond, specCond] using applyFilterOps_ok_true_iff v entries
  | null => simp [applyFilterCond, specCond]
  | b x => simp [applyFilterCond, specCond]
  | i x => simp [applyFilterCond, specCond]
  | f x => simp [applyFilterCond, specCond]
  | s x => simp [applyFilterCond, specCond]
  | arr xs => simp [applyFilterCond, specCond]

/-- C3 (amended): `apply_filter(data, filters)` returns `True` exactly when
every `(key, condition)` pair in `filters` has its key present in `data`
and `data[key]` satisfies the condition — Python equality for non-dict
conditions; for dict conditions, every entry's operator must be one of
gt, gte, lt, lte, eq, ne, in, nin and its comparison must succeed and
hold of `(data[key], value)`. -/
theorem C3_apply_filter_semantics (data : PyDict) (filters : List (String × JVal)) :
    applyFilter data filters = .ok true ↔
      filterSpec condSpecAmended data filters = true := by
  induction filters with
  | nil => simp [applyFilter, filterSpec]
  | cons e rest ih =>
    obtain ⟨key, cond⟩ := e
    by_cases hk : pyHasKey data key
    · cases hc : applyFilterCond (pyGetD data key .null) cond with
      | error err =>
        have hspec : specCond condSpecAmended (pyGetD data key .null) cond ≠ true := by
          intro htrue
          have := (applyFilterCond_ok_true_iff _ _).mpr htrue
          rw [hc] at this
          exact Except.noConfusion this
        simp [applyFilter, hk, hc, filterSpec, Bind.bind, Except.bind, hspec]
      | ok r =>
        cases r with
        | false =>
          have hspec : specCond condSpecAmended (pyGetD data key .null) cond ≠ true := by
            intro htrue
            have := (applyFilterCond_ok_true_iff _ _).mpr htrue
            rw [hc] at this
            simp at this
          simp [applyFilter, hk, hc, filterSpec, Bind.bind, Except.bind, hspec]
        | true =>
          have hspec : specCond condSpecAmended (pyGetD data key .null) cond = true :=
            (applyFilterCond_ok_true_iff _ _).mp hc
          simp [applyFilter, hk, hc, filterSpec, Bind.bind, Except.bind, hspec, ih]
    · simp [applyFilter, hk, filterSpec]

/-- C3 counterexample: with `data = {"k": 1}` and
`filters = {"k": {"bogus": 1}}`, `apply_filter` returns `False` (an
operator outside the table short-circuits to `False`), while the claim's
literal reading — which only constrains entries whose operator is among
the eight table operators — is satisfied, so the claimed equivalence fails. -/
theorem C3_counterexample :
    ¬ (applyFilter [("k", JVal.i 1)] [("k", JVal.obj [("bogus", JVal.i 1)])] = .ok true ↔
       filterSpec condSpecLiteral [("k", JVal.i 1)] [("k", JVal.obj [("bogus", JVal.i 1)])] = true) := by
  intro h
  have hcode : applyFilter [("k", JVal.i 1)] [("k", JVal.obj [("bogus", JVal.i 1)])] =
      .ok false := by rfl
  have hspec : filterSpec condSpecLiteral [("k", JVal.i 1)]
      [("k", JVal.obj [("bogus", JVal.i 1)])] = true := by rfl
  have := h.mpr hspec
  rw [hcode] at this
  simp at this

/-! ## Hashing (`_deterministic.py`: `hash_chunks`, `fingerprint_file`,
`hash_schema`, `combined_seed`)

The repository hashes with `hashlib.sha256`; SHA-256 is implemented here
over byte lists, with 32-bit words as naturals reduced mod `2^32`. -/

/-- Truncate to a 32-bit word. -/
def w32 (n : Nat) : Nat := n % 4294967296

/-- 32-bit right rotation. -/
def rotr32 (x n : Nat) : Nat := w32 ((x >>> n) ||| (x <<< (32 - n)))

/-- 32-bit complement. -/
def not32 (x : Nat) : Nat := x ^^^ 4294967295

/-- The SHA-256 round constants. -/
def sha256K : List Nat :=
  [1116352408, 1899447441, 3049323471, 3921009573, 961987163, 1508970993,
   2453635748, 2870763221, 3624381080, 310598401, 607225278, 1426881987,
   1925078388, 2162078206, 2614888103, 3248222580, 3835390401, 4022224774,
   264347078, 604807628, 770255983, 1249150122, 1555081692, 1996064986,
   2554220882, 2821834349, 2952996808, 3210313671, 3336571891, 3584528711,
   113926993, 338241895, 666307205, 773529912, 1294757372, 1396182291,
   1695183700, 1986661051, 2177026350, 2456956037, 2730485921, 2820302411,
   3259730800, 3345764771, 3516065817, 3600352804, 4094571909, 275423344,
   430227734, 506948616, 659060556, 883997877, 958139571, 1322822218,
   1537002063, 1747873779, 1955562222, 2024104815, 2227730452, 2361852424,
   2428436474, 2756734187, 3204031479, 3329325298]

/-- The SHA-256 initial hash state. -/
def sha256InitH : List Nat :=
  [1779033703, 3144134277, 1013904242, 2773480762,
   1359893119, 2600822924, 528734635, 1541459225]

/-- Big-endian 8-byte encoding. -/
def be64 (n : Nat) : List Nat :=
  (List.range 8).map (fun idx => (n >>> (8 * (7 - idx))) % 256)

/-- SHA-256 message padding. -/
def sha256Pad (msg : List Nat) : List Nat :=
  let padZeros := (119 - msg.length % 64) % 64
  msg ++ [0x80] ++ List.replicate padZeros 0 ++ be64 (8 * msg.length)

/-- Split into 64-byte blocks (fuelled by the list length so the kernel
can evaluate it; each step consumes at least one element). -/
def chunks64F : Nat → List Nat → List (List Nat)
  | 0, _ => []
  | _, [] => []
  | fuel + 1, x :: rest => (x :: rest).take 64 :: chunks64F fuel ((x :: rest).drop 64)

/-- Split a byte list into 64-byte blocks. -/
def chunks64 (l : List Nat) : List (List Nat) := chunks64F l.length l

/-- Big-endian 32-bit word number `idx` of a block. -/
def beWord (block : List Nat) (idx : Nat) : Nat :=
  (block.getD (4 * idx) 0) <<< 24 ||| (block.getD (4 * idx + 1) 0) <<< 16 |||
  (block.getD (4 * idx + 2) 0) <<< 8 ||| block.getD (4 * idx + 3) 0

/-- The SHA-256 message schedule (64 words) of a block. -/
def sha256Schedule (block : List Nat) : List Nat :=
  let w0 := (List.range 16).map (beWord block)
  (List.range 48).foldl
    (fun w t =>
      let idx := t + 16
      let x15 := w.getD (idx - 15) 0
      let x2 := w.getD (idx - 2) 0
      let s0 := rotr32 x15 7 ^^^ rotr32 x15 18 ^^^ (x15 >>> 3)
      let s1 := rotr32 x2 17 ^^^ rotr32 x2 19 ^^^ (x2 >>> 10)
      w ++ [w32 (w.getD (idx - 16) 0 + s0 + w.getD (idx - 7) 0 + s1)])
    w0

/-- One SHA-256 compression round on the 8-word state. -/
def sha256Round (st : List Nat) (kt wt : Nat) : List Nat :=
  match st with
  | [a, b, c, d, e, f, g, h] =>
    let s1 := rotr32 e 6 ^^^ rotr32 e 11 ^^^ rotr32 e 25
    let ch := (e &&& f) ^^^ (not32 e &&& g)
    let temp1 := w32 (h + s1 + ch + kt + wt)
    let s0 := rotr32 a 2 ^^^ rotr32 a 13 ^^^ rotr32 a 22
    let maj := (a &&& b) ^^^ (a &&& c) ^^^ (b &&& c)
    let temp2 := w32 (s0 + maj)
    [w32 (temp1 + temp2), a, b, c, w32 (d + temp1), e, f, g]
  | st => st

/-- SHA-256 compression of a single block. -/
def sha256Compress (hs : List Nat) (block : List Nat) : List Nat :=
  let w := sha256Schedule block
  let final := (List.range 64).foldl
    (fun st t => sha256Round st (sha256K.getD t 0) (w.getD t 0)) hs
  List.zipWith (fun x y => w32 (x + y)) hs final

/-- Big-endian 4-byte encoding. -/
def be32 (n : Nat) : List Nat :=
  (List.range 4).map (fun idx => (n >>> (8 * (3 - idx))) % 256)

/-- The SHA-256 digest (32 bytes) of a byte list. -/
def sha256Bytes (msg : List Nat) : List Nat :=
  (((chunks64 (sha256Pad msg)).foldl sha256Compress sha256InitH).map be32).flatten

/-- A lowercase hexadecimal digit. -/
def hexDigit (n : Nat) : Char :=
  if n < 10 then Char.ofNat (48 + n) else Char.ofNat (87 + n)

/-- Lowercase hexadecimal rendering of a byte list. -/
def hexOfBytes (bs : List Nat) : String :=
  String.mk (bs.flatMap (fun byte => [hexDigit (byte / 16), hexDigit (byte % 16)]))

/-- `hashlib.sha256(...).hexdigest()`. -/
def sha256Hex (msg : List Nat) : String := hexOfBytes (sha256Bytes msg)

/-- UTF-8 encoding of one character. -/
def utf8EncodeCharNat (c : Char) : List Nat :=
  let n := c.toNat
  if n < 128 then [n]
  else if n < 2048 then [192 ||| (n >>> 6), 128 ||| (n &&& 63)]
  else if n < 65536 then
    [224 ||| (n >>> 12), 128 ||| ((n >>> 6) &&& 63), 128 ||| (n &&& 63)]
  else
    [240 ||| (n >>> 18), 128 ||| ((n >>> 12) &&& 63), 128 ||| ((n >>> 6) &&& 63),
     128 ||| (n &&& 63)]

/-- Python `str.encode("utf-8")` as a byte list. -/
def utf8Bytes (str : String) : List Nat := str.data.flatMap utf8EncodeCharNat

set_option maxRecDepth 100000 in
theorem sha256Hex_empty :
    sha256Hex [] = "e3b0c44298fc1c149afbf4c8996fb92427ae41e4649b934ca495991b7852b855" := by
  rfl

set_option maxRecDepth 100000 in
theorem sha256Hex_abc :
    sha256Hex (utf8Bytes "abc") =
      "ba7816bf8f01cfea414140de5dae2223b00361a396177a9cb410ff61f20015ad" := by
  rfl

/-- `hash_chunks(chunks)`: one digest over the concatenation. -/
def hashChunks (chunks : List (List Nat)) : String := sha256Hex chunks.flatten

/-- `fingerprint_file(content, filename)`: hash of content then the UTF-8
bytes of the filename (empty for `None` or the falsy empty string). -/
def fingerprintFile (content : List Nat) (filename : Option String) : String :=
  let nameBytes := match filename with
    | some fn => if fn = "" then [] else utf8Bytes fn
    | none => []
  hashChunks [content, nameBytes]

/-! ## Canonical JSON serialisation (`json.dumps(..., sort_keys=True,
separators=(",", ":"))`) used by `hash_schema`. -/

/-- Four lowercase hex digits. -/
def hex4 (n : Nat) : String :=
  String.mk [hexDigit (n / 4096 % 16), hexDigit (n / 256 % 16), hexDigit (n / 16 % 16),
    hexDigit (n % 16)]

/-- JSON string escaping with `ensure_ascii=True` (the `json.dumps`
default): short escapes for the common control characters, `\uXXXX` for
other control and all non-ASCII characters, surrogate pairs beyond the
basic multilingual plane. -/
def jsonEscapeChar (c : Char) : String :=
  let n := c.toNat
  if c = Char.ofNat 34 then "\\\""
  else if c = Char.ofNat 92 then "\\\\"
  else if n = 10 then "\\n"
  else if n = 13 then "\\r"
  else if n = 9 then "\\t"
  else if n = 8 then "\\b"
  else if n = 12 then "\\f"
  else if n < 32 then "\\u" ++ hex4 n
  else if n < 127 then String.mk [c]
  else if n < 65536 then "\\u" ++ hex4 n
  else "\\u" ++ hex4 (55296 + (n - 65536) / 1024) ++ "\\u" ++ hex4 (56320 + (n - 65536) % 1024)

/-- A JSON string literal. -/
def jsonQuote (str : String) : String :=
  "\"" ++ String.join (str.data.map jsonEscapeChar) ++ "\""

/-- Python string `<=`: lexicographic comparison of code points. -/
def charListLe : List Char → List Char → Bool
  | [], _ => true
  | _ :: _, [] => false
  | c :: cs, d :: ds =>
    if c.toNat < d.toNat then true
    else if d.toNat < c.toNat then false
    else charListLe cs ds

/-- Python string `<=` on strings. -/
def strLe (a b : String) : Bool := charListLe a.data b.data

theorem charToNat_inj {c d : Char} (h : c.toNat = d.toNat) : c = d := by
  have h1 : Char.ofNat c.toNat = Char.ofNat d.toNat := by rw [h]
  rwa [Char.ofNat_toNat, Char.ofNat_toNat] at h1

theorem charListLe_total : ∀ xs ys, charListLe xs ys = true ∨ charListLe ys xs = true := by
  intro xs
  induction xs with
  | nil => intro ys; left; rfl
  | cons c cs ih =>
    intro ys
    cases ys with
    | nil => right; rfl
    | cons d ds =>
      rcases Nat.lt_trichotomy c.toNat d.toNat with h | h | h
      · left; simp [charListLe, h]
      · rcases ih ds with h2 | h2
        · left; simp [charListLe, h, h2]
        · right; simp [charListLe, h, h2]
      · right; simp [charListLe, h, Nat.lt_asymm h]

theorem charListLe_trans :
    ∀ xs ys zs, charListLe xs ys = true → charListLe ys zs = true →
      charListLe xs zs = true := by
  intro xs
  induction xs with
  | nil => intro ys zs _ _; rfl
  | cons c cs ih =>
    intro ys zs h1 h2
    cases ys with
    | nil => simp [charListLe] at h1
    | cons d ds =>
      cases zs with
      | nil => simp [charListLe] at h2
      | cons e es =>
        simp only [charListLe] at h1 h2 ⊢
        by_cases hcd : c.toNat < d.toNat
        · by_cases hde : d.toNat < e.toNat
          · rw [if_pos (by omega)]
          · by_cases hed : e.toNat < d.toNat
            · rw [if_neg hde, if_pos hed] at h2
              exact absurd h2 (by simp)
            · rw [if_pos (by omega)]
        · by_cases hdc : d.toNat < c.toNat
          · rw [if_neg hcd, if_pos hdc] at h1
            exact absurd h1 (by simp)
          · rw [if_neg hcd, if_neg hdc] at h1
            by_cases hde : d.toNat < e.toNat
            · rw [if_pos (by omega)]
            · by_cases hed : e.toNat < d.toNat
              · rw [if_neg hde, if_pos hed] at h2
                exact absurd h2 (by simp)
              · rw [if_neg hde, if_neg hed] at h2
                rw [if_neg (show ¬ c.toNat < e.toNat by omega),
                  if_neg (show ¬ e.toNat < c.toNat by omega)]
                exact ih ds es h1 h2

theorem charListLe_antisymm :
    ∀ xs ys, charListLe xs ys = true → charListLe ys xs = true → xs = ys := by
  intro xs
  induction xs with
  | nil =>
    intro ys _ h2
    cases ys with
    | nil => rfl
    | cons d ds => simp [charListLe] at h2
  | cons c cs ih =>
    intro ys h1 h2
    cases ys with
    | nil => simp [charListLe] at h1
    | cons d ds =>
      simp only [charListLe] at h1 h2
      by_cases hcd : c.toNat < d.toNat
      · have hdc : ¬ d.toNat < c.toNat := by omega
        rw [if_neg hdc, if_pos hcd] at h2
        exact absurd h2 (by simp)
      · by_cases hdc : d.toNat < c.toNat
        · rw [if_neg hcd, if_pos hdc] at h1
          exact absurd h1 (by simp)
        · rw [if_neg hcd, if_neg hdc] at h1
          rw [if_neg hdc, if_neg hcd] at h2
          have hce : c = d := charToNat_inj (by omega)
          rw [hce, ih ds h1 h2]

def strLeP (a b : String) : Prop := strLe a b = true

instance : DecidableRel strLeP := fun a b => by
  unfold strLeP
  infer_instance

instance : IsTotal String strLeP := ⟨fun a b => charListLe_total a.data b.data⟩

instance : IsTrans String strLeP :=
  ⟨fun a b c h1 h2 => charListLe_trans a.data b.data c.data h1 h2⟩

instance : IsAntisymm String strLeP :=
  ⟨fun a b h1 h2 => by
    cases a with
    | mk as =>
      cases b with
      | mk bs =>
        have := charListLe_antisymm as bs h1 h2
        rw [this]⟩

def sortStrings (l : List String) : List String := l.insertionSort strLeP

theorem sortStrings_sorted (l : List String) : List.Sorted strLeP (sortStrings l) :=
  List.sorted_insertionSort strLeP l

theorem sortStrings_perm (l : List String) : List.Perm (sortStrings l) l :=
  List.perm_insertionSort strLeP l

/-- Sort dictionary entries by key (`sort_keys=True`; Python list sorting
is stable, as is insertion sort; keys are unique anyway). -/
def sortPairsByKey (l : PyDict) : PyDict :=
  l.insertionSort (fun a b => strLe a.1 b.1 = true)

/-- Rendering of a float.  Python renders floats with `repr` (shortest
round-tripping decimal); no claim in this development depends on float
serialisation, so a simple exact rendering of the rational stands in. -/
def floatRepr (q : Rat) : String :=
  if q.den = 1 then toString q.num ++ ".0" else toString q.num ++ "/" ++ toString q.den

/-- `json.dumps(v, sort_keys=True, separators=(",", ":"))`, fuelled by the
value size; the fuel strictly exceeds the nesting depth, so the
fuel-exhausted branch is never taken. -/
def jsonDumpsF : Nat → JVal → String
  | 0, _ => ""
  | fuel + 1, v =>
    match v with
    | .null => "null"
    | .b true => "true"
    | .b false => "false"
    | .i n => toString n
    | .f q => floatRepr q
    | .s str => jsonQuote str
    | .arr xs => "[" ++ String.intercalate "," (xs.map (jsonDumpsF fuel)) ++ "]"
    | .obj l =>
      "\x7b" ++
        String.intercalate ","
          ((sortPairsByKey l).map (fun kv => jsonQuote kv.1 ++ ":" ++ jsonDumpsF fuel kv.2)) ++
      "\x7d"
termination_by structural fuel _ => fuel

/-- Canonical JSON serialisation of a value. -/
def jsonDumps (v : JVal) : String := jsonDumpsF (jsize v) v

/-- `hash_schema(schema)`: SHA-256 of the canonical JSON serialisation
(`_to_serializable` is the identity on plain JSON values). -/
def hashSchema (v : JVal) : String := sha256Hex (utf8Bytes (jsonDumps v))

/-- Numeric value of a lowercase hex digit. -/
def hexVal (c : Char) : Nat :=
  if c.toNat ≥ 97 then c.toNat - 87 else c.toNat - 48

/-- `combined_seed(*parts)`: the first 16 hex digits of the digest of the
concatenated UTF-8 encodings, read as a base-16 integer. -/
def combinedSeed (parts : List String) : Nat :=
  let digest := hashChunks (parts.map utf8Bytes)
  (digest.data.take 16).foldl (fun acc c => 16 * acc + hexVal c) 0

theorem jsonDumps_sample :
    jsonDumps (JVal.obj [("b", JVal.arr [JVal.i 1, JVal.null, JVal.b true]),
      ("a", JVal.s "x\"y")]) = "\x7b\"a\":\"x\\\"y\",\"b\":[1,null,true]\x7d" := by
  rfl

/-! ## The fake agent-data store (`testing_utils/agent_data.py`) -/

/-- `apply_filter` when the data argument is an arbitrary JSON value.
Dictionaries use the dictionary semantics; for any other value the key
test `key not in data` is Python `in` (which may itself raise), and a
satisfied key test leads to the `data[key]` subscript raising `TypeError`
(except that an entry whose operator is outside the table returns `False`
before subscripting). -/
def applyFilterNonDict (dataVal : JVal) : PyDict → Except String Bool
  | [] => .ok true
  | (key, cond) :: rest => do
    let present ← pyIn (.s key) dataVal
    if !present then .ok false
    else
      match cond with
      | .obj [] => applyFilterNonDict dataVal rest
      | .obj ((op, _) :: _) =>
        if op ∈ opNames then .error "TypeError: value is not subscriptable"
        else .ok false
      | _ => .error "TypeError: value is not subscriptable"

/-- `apply_filter(data, filters)` for an arbitrary data value. -/
def applyFilterJ (dataVal : JVal) (filters : PyDict) : Except String Bool :=
  match dataVal with
  | .obj d => applyFilter d filters
  | other => applyFilterNonDict other filters

/-- `apply_filter(data, filters)` for an arbitrary filter value: a
non-dictionary filter raises `AttributeError` at `filters.items()`. -/
def applyFilterAny (dataVal : JVal) (filters : JVal) : Except String Bool :=
  match filters with
  | .obj fs => applyFilterJ dataVal fs
  | _ => .error "AttributeError: object has no attribute items"

/-- A stored agent-data item (`StoredAgentData`).  `collection` and
`deployment_name` come from a JSON payload, so they are JSON values. -/
structure StoredAgentData where
  data : JVal
  id : String
  collection : JVal
  deploymentName : JVal
deriving Repr

/-- `StoredAgentData.from_request_data`: the item id is the first 7 hex
characters of `hash_schema` of the data payload. -/
def fromRequestData (payload : PyDict) : StoredAgentData :=
  { data := pyGetD payload "data" (.obj [])
    collection := pyGetD payload "collection" (.s "default")
    deploymentName := pyGetD payload "deployment_name" (.s "")
    id := (hashSchema (pyGetD payload "data" (.obj []))).take 7 }

/-- `FakeAgentDataNamespace._create_data`: build the item from the payload
and append it to the store; the response carries the new item. -/
def createData (store : List StoredAgentData) (payload : PyDict) :
    StoredAgentData × List StoredAgentData :=
  let item := fromRequestData payload
  (item, store ++ [item])

/-- Does an item match the collection/deployment of a request payload?
(`data.collection == payload.get("collection", "default") and
data.deployment_name == payload.get("deployment_name")`). -/
def matchesCollDep (item : StoredAgentData) (payload : PyDict) : Bool :=
  pyEq item.collection (pyGetD payload "collection" (.s "default")) &&
  pyEq item.deploymentName (pyGetD payload "deployment_name" .null)

/-- The filtering loop of `_delete_data_by_query`: `to_keep` collects
only the items that match the request's collection/deployment and fail
the filter — an item of another collection or deployment is never
appended, so `self.stored = to_keep` drops it as well; `delete_count`
counts only filter hits.  A raised filter error aborts the handler
before the assignment (leaving the store unchanged). -/
def deleteByQueryLoop (payload : PyDict) (filters : JVal) :
    List StoredAgentData → Except String (List StoredAgentData × Nat)
  | [] => .ok ([], 0)
  | item :: rest =>
    if matchesCollDep item payload then do
      let r ← applyFilterAny item.data filters
      let (keep, cnt) ← deleteByQueryLoop payload filters rest
      if r then .ok (keep, cnt + 1) else .ok (item :: keep, cnt)
    else deleteByQueryLoop payload filters rest

/-- `FakeAgentDataNamespace._delete_data_by_query`: with no `filter`
field (or a JSON-null one) nothing is deleted and `deleted_count` is 0. -/
def deleteByQuery (store : List StoredAgentData) (payload : PyDict) :
    Except String (List StoredAgentData × Nat) :=
  match pyGet payload "filter" with
  | none => .ok (store, 0)
  | some .null => .ok (store, 0)
  | some fv => deleteByQueryLoop payload fv store

/-- `FakeAgentDataNamespace._delete_data_by_id`: 400 without an item id,
404 when no item has the id, otherwise every item with the id is removed. -/
def deleteDataById (store : List StoredAgentData) (itemId : Option String) :
    Nat × List StoredAgentData :=
  match itemId with
  | none => (400, store)
  | some id =>
    if store.any (fun it => it.id = id) then
      (200, store.filter (fun it => it.id ≠ id))
    else (404, store)

/-- `FakeAgentDataNamespace._get_data_by_id`: 400 without an item id, the
first stored item with the id when one exists, 404 otherwise. -/
def getDataById (store : List StoredAgentData) (itemId : Option String) :
    Nat × Option StoredAgentData :=
  match itemId with
  | none => (400, none)
  | some id =>
    match store.filter (fun it => it.id = id) with
    | [] => (404, none)
    | first :: _ => (200, some first)

/-- The filtered branch of `_search_data`: forward pass collecting the
matching items that satisfy the filter. -/
def searchLoop (payload : PyDict) (filters : JVal) :
    List StoredAgentData → Except String (List StoredAgentData)
  | [] => .ok []
  | item :: rest =>
    if matchesCollDep item payload then do
      let r ← applyFilterAny item.data filters
      let found ← searchLoop payload filters rest
      if r then .ok (item :: found) else .ok found
    else searchLoop payload filters rest

/-- `FakeAgentDataNamespace._search_data`: with no `filter` field (or a
JSON-null one) every item matching the collection and deployment is
returned, in store order. -/
def searchData (store : List StoredAgentData) (payload : PyDict) :
    Except String (List StoredAgentData) :=
  match pyGet payload "filter" with
  | none => .ok (store.filter (fun it => matchesCollDep it payload))
  | some .null => .ok (store.filter (fun it => matchesCollDep it payload))
  | some fv => searchLoop payload fv store

/-- C10: search and delete-by-query treat a missing `filter` field
asymmetrically: a search request without a `filter` returns every item
whose collection and deployment name match the request, while a
delete-by-query request without a `filter` deletes nothing and reports
`deleted_count = 0`, leaving the store unchanged. -/
theorem C10_missing_filter_asymmetry (store : List StoredAgentData) (payload : PyDict)
    (hnof : pyGet payload "filter" = none) :
    searchData store payload = .ok (store.filter (fun it => matchesCollDep it payload)) ∧
    deleteByQuery store payload = .ok (store, 0) := by
  constructor
  · simp [searchData, hnof]
  · simp [deleteByQuery, hnof]

theorem C10_missing_filter_asymmetry_witness :
    pyGet [("collection", JVal.s "c")] "filter" = none ∧
    searchData [] [("collection", JVal.s "c")] = .ok [] ∧
    deleteByQuery [] [("collection", JVal.s "c")] = .ok ([], 0) := by
  refine ⟨by rfl, ?_, ?_⟩
  · exact (C10_missing_filter_asymmetry [] [("collection", JVal.s "c")] (by rfl)).1
  · exact (C10_missing_filter_asymmetry [] [("collection", JVal.s "c")] (by rfl)).2

/-- C8: agent-data item ids are content-derived, not unique: the id is the
first 7 hex characters of the SHA-256 hash (of the canonical JSON) of the
item's data payload, so two creations with equal data payloads append two
stored items with the same id; a delete-by-id for that id then removes
both (restoring the prior store when no prior item carried the id), while
get-by-id returns the first of them. -/
theorem C8_content_derived_ids
    (store : List StoredAgentData) (payload1 payload2 : PyDict)
    (hdata : pyGetD payload1 "data" (.obj []) = pyGetD payload2 "data" (.obj []))
    (hfresh : ∀ it ∈ store, it.id ≠ (hashSchema (pyGetD payload1 "data" (.obj []))).take 7) :
    (createData store payload1).1.id =
        (hashSchema (pyGetD payload1 "data" (.obj []))).take 7 ∧
    (createData (createData store payload1).2 payload2).1.id = (createData store payload1).1.id ∧
    (createData (createData store payload1).2 payload2).2 =
      store ++ [(createData store payload1).1, (createData (createData store payload1).2 payload2).1] ∧
    deleteDataById (createData (createData store payload1).2 payload2).2
        (some (createData store payload1).1.id) = (200, store) ∧
    getDataById (createData (createData store payload1).2 payload2).2
        (some (createData store payload1).1.id) = (200, some (createData store payload1).1) := by
  have hid2 : (fromRequestData payload2).id = (fromRequestData payload1).id := by
    simp only [fromRequestData]
    rw [hdata]
  have hfresh1 : ∀ it ∈ store, ¬ it.id = (fromRequestData payload1).id := by
    intro it hit
    simpa only [fromRequestData] using hfresh it hit
  refine ⟨?_, ?_, ?_, ?_, ?_⟩
  · simp only [createData, fromRequestData]
  · simpa only [createData] using hid2
  · simp [createData]
  · simp only [createData]
    have hany : ((store ++ [fromRequestData payload1]) ++ [fromRequestData payload2]).any
        (fun it => it.id = (fromRequestData payload1).id) = true := by
      simp
    have hkeep : store.filter (fun it => it.id ≠ (fromRequestData payload1).id) = store := by
      apply List.filter_eq_self.mpr
      intro a ha
      simpa using hfresh1 a ha
    simp [deleteDataById, hany, List.filter_append, hkeep, hid2]
    exact hfresh1
  · simp only [createData]
    have hdrop : store.filter (fun it => it.id = (fromRequestData payload1).id) = [] := by
      apply List.filter_eq_nil_iff.mpr
      intro a ha
      simpa using hfresh1 a ha
    simp [getDataById, List.filter_append, hdrop, hid2]

theorem C8_content_derived_ids_witness :
    (pyGetD [("data", JVal.obj [("a", JVal.i 1)])] "data" (.obj []) =
      pyGetD [("data", JVal.obj [("a", JVal.i 1)])] "data" (.obj [])) ∧
    ((createData [] [("data", JVal.obj [("a", JVal.i 1)])]).1.id =
        (hashSchema (pyGetD [("data", JVal.obj [("a", JVal.i 1)])] "data" (.obj []))).take 7 ∧
      (createData (createData [] [("data", JVal.obj [("a", JVal.i 1)])]).2
          [("data", JVal.obj [("a", JVal.i 1)])]).1.id =
        (createData [] [("data", JVal.obj [("a", JVal.i 1)])]).1.id ∧
      (createData (createData [] [("data", JVal.obj [("a", JVal.i 1)])]).2
          [("data", JVal.obj [("a", JVal.i 1)])]).2 =
        [] ++ [(createData [] [("data", JVal.obj [("a", JVal.i 1)])]).1,
          (createData (createData [] [("data", JVal.obj [("a", JVal.i 1)])]).2
            [("data", JVal.obj [("a", JVal.i 1)])]).1] ∧
      deleteDataById
          (createData (createData [] [("data", JVal.obj [("a", JVal.i 1)])]).2
            [("data", JVal.obj [("a", JVal.i 1)])]).2
          (some (createData [] [("data", JVal.obj [("a", JVal.i 1)])]).1.id) = (200, []) ∧
      getDataById
          (createData (createData [] [("data", JVal.obj [("a", JVal.i 1)])]).2
            [("data", JVal.obj [("a", JVal.i 1)])]).2
          (some (createData [] [("data", JVal.obj [("a", JVal.i 1)])]).1.id) =
        (200, some (createData [] [("data", JVal.obj [("a", JVal.i 1)])]).1)) :=
  ⟨rfl, C8_content_derived_ids [] [("data", JVal.obj [("a", JVal.i 1)])]
      [("data", JVal.obj [("a", JVal.i 1)])] rfl (by simp)⟩

/-! ## `record_extracted_data` (process_file.py) -/

/-- `EXTRACTED_DATA_COLLECTION` from config.py. -/
def EXTRACTED_DATA_COLLECTION : String := "extraction-review"

/-- Does a stored item's data carry `file_hash` equal (by Python `==`) to
the given value?  (Only dictionaries can carry one.) -/
def itemHashEq (it : StoredAgentData) (hv : JVal) : Bool :=
  match it.data with
  | .obj d => pyHasKey d "file_hash" && pyEq (pyGetD d "file_hash" .null) hv
  | _ => false

/-- `ProcessFileWorkflow.record_extracted_data`, run against the fake
agent-data store: when the event data has a non-null `file_hash`, first
delete by query on `{"file_hash": {"eq": hash}}` in the
extraction-review collection for the current deployment, then store the
event data as a new item and return its id.  (The HTTP layer between the
SDK call and the fake handler is elided; the payloads are the ones the
workflow builds.) -/
def recordExtractedData (store : List StoredAgentData) (eventData : PyDict)
    (depName : String) : Except String (List StoredAgentData × String) := do
  let store1 ←
    match pyGetD eventData "file_hash" JVal.null with
    | .null => pure store
    | h => do
      let (st, _) ← deleteByQuery store
        [("deployment_name", JVal.s depName),
         ("collection", JVal.s EXTRACTED_DATA_COLLECTION),
         ("filter", JVal.obj [("file_hash", JVal.obj [("eq", h)])])]
      pure st
  let (item, store2) := createData store1
    [("data", JVal.obj eventData),
     ("collection", JVal.s EXTRACTED_DATA_COLLECTION),
     ("deployment_name", JVal.s depName)]
  pure (store2, item.id)

theorem applyFilter_fileHash_eq (d : PyDict) (hv : JVal) :
    applyFilter d [("file_hash", JVal.obj [("eq", hv)])] =
      .ok (pyHasKey d "file_hash" && pyEq (pyGetD d "file_hash" .null) hv) := by
  cases h1 : pyHasKey d "file_hash" <;>
    cases h2 : pyEq (pyGetD d "file_hash" .null) hv <;>
      simp [applyFilter, applyFilterCond, applyFilterOps, evalOp, opNames, h1, h2,
        Bind.bind, Except.bind]

theorem deleteByQueryLoop_fileHash (payload : PyDict) (hv : JVal) :
    ∀ store : List StoredAgentData, (∀ it ∈ store, ∃ d, it.data = JVal.obj d) →
    ∃ cnt, deleteByQueryLoop payload (JVal.obj [("file_hash", JVal.obj [("eq", hv)])]) store =
      .ok (store.filter (fun it => matchesCollDep it payload && !(itemHashEq it hv)), cnt) := by
  intro store
  induction store with
  | nil => exact fun _ => ⟨0, rfl⟩
  | cons item rest ih =>
    intro hwf
    obtain ⟨cnt, hrest⟩ := ih (fun it hit => hwf it (by simp [hit]))
    obtain ⟨d, hd⟩ := hwf item (by simp)
    by_cases hm : matchesCollDep item payload
    · cases hP : (pyHasKey d "file_hash" && pyEq (pyGetD d "file_hash" .null) hv) with
      | true =>
        refine ⟨cnt + 1, ?_⟩
        have hih : itemHashEq item hv = true := by simp [itemHashEq, hd, hP]
        simp [deleteByQueryLoop, hm, hd, applyFilterAny, applyFilterJ,
          applyFilter_fileHash_eq, hP, hrest, hih, Bind.bind, Except.bind]
      | false =>
        refine ⟨cnt, ?_⟩
        have hih : itemHashEq item hv = false := by simp [itemHashEq, hd, hP]
        simp [deleteByQueryLoop, hm, hd, applyFilterAny, applyFilterJ,
          applyFilter_fileHash_eq, hP, hrest, hih, Bind.bind, Except.bind]
    · refine ⟨cnt, ?_⟩
      simp [deleteByQueryLoop, hm, hrest, Bind.bind, Except.bind]

/-- C6: persisting an extraction result de-duplicates by file hash: with a
non-null (string) `file_hash` in the event data, `record_extracted_data`
deletes every item of the extraction-review collection for the current
deployment whose `data.file_hash` equals that hash (the store rebuild of
`_delete_data_by_query` keeps exactly the collection/deployment-matching
items that fail the filter, silently dropping items of other collections
or deployments as well), appends exactly one new item holding the event
data, and returns the new item's id; afterwards exactly one item of that
collection and deployment carries the hash. -/
theorem C6_record_extracted_data_dedup
    (store : List StoredAgentData) (eventData : PyDict) (depName fh : String)
    (hhash : pyGetD eventData "file_hash" JVal.null = JVal.s fh)
    (hwf : ∀ it ∈ store, ∃ d, it.data = JVal.obj d) :
    ∃ kept,
      kept = store.filter (fun it =>
        matchesCollDep it
            [("deployment_name", JVal.s depName),
             ("collection", JVal.s EXTRACTED_DATA_COLLECTION),
             ("filter", JVal.obj [("file_hash", JVal.obj [("eq", JVal.s fh)])])] &&
          !(itemHashEq it (JVal.s fh))) ∧
      recordExtractedData store eventData depName =
        .ok (kept ++ [fromRequestData
              [("data", JVal.obj eventData),
               ("collection", JVal.s EXTRACTED_DATA_COLLECTION),
               ("deployment_name", JVal.s depName)]],
             (fromRequestData
              [("data", JVal.obj eventData),
               ("collection", JVal.s EXTRACTED_DATA_COLLECTION),
               ("deployment_name", JVal.s depName)]).id) ∧
      ((kept ++ [fromRequestData
              [("data", JVal.obj eventData),
               ("collection", JVal.s EXTRACTED_DATA_COLLECTION),
               ("deployment_name", JVal.s depName)]]).filter (fun it =>
          matchesCollDep it
            [("deployment_name", JVal.s depName),
             ("collection", JVal.s EXTRACTED_DATA_COLLECTION),
             ("filter", JVal.obj [("file_hash", JVal.obj [("eq", JVal.s fh)])])] &&
          itemHashEq it (JVal.s fh))).length = 1 := by
  obtain ⟨cnt, hdel⟩ := deleteByQueryLoop_fileHash
    [("deployment_name", JVal.s depName),
     ("collection", JVal.s EXTRACTED_DATA_COLLECTION),
     ("filter", JVal.obj [("file_hash", JVal.obj [("eq", JVal.s fh)])])]
    (JVal.s fh) store hwf
  refine ⟨_, rfl, ?_, ?_⟩
  · have hfil : pyGet
        [("deployment_name", JVal.s depName),
         ("collection", JVal.s EXTRACTED_DATA_COLLECTION),
         ("filter", JVal.obj [("file_hash", JVal.obj [("eq", JVal.s fh)])])] "filter" =
        some (JVal.obj [("file_hash", JVal.obj [("eq", JVal.s fh)])]) := by rfl
    simp only [recordExtractedData, hhash, deleteByQuery, hfil, hdel, createData,
      Bind.bind, Except.bind, pure, Except.pure]
  · have hmatch : matchesCollDep
        (fromRequestData
          [("data", JVal.obj eventData),
           ("collection", JVal.s EXTRACTED_DATA_COLLECTION),
           ("deployment_name", JVal.s depName)])
        [("deployment_name", JVal.s depName),
         ("collection", JVal.s EXTRACTED_DATA_COLLECTION),
         ("filter", JVal.obj [("file_hash", JVal.obj [("eq", JVal.s fh)])])] = true := by
      simp [matchesCollDep, fromRequestData, pyGetD, pyGet, pyEq, pyEqF, jsize]
    have hkey : pyHasKey eventData "file_hash" = true := by
      rw [pyGetD, pyGet] at hhash
      rcases hfind : eventData.find? (fun kv => kv.1 = "file_hash") with _ | kv
      · rw [hfind] at hhash
        simp at hhash
      · rw [pyHasKey]
        have : kv ∈ eventData ∧ (fun kv => decide (kv.1 = "file_hash")) kv = true :=
          List.find?_some hfind |> fun hp => ⟨List.mem_of_find?_eq_some hfind, hp⟩
        exact List.any_eq_true.mpr ⟨kv, this.1, this.2⟩
    have hhasheq : itemHashEq
        (fromRequestData
          [("data", JVal.obj eventData),
           ("collection", JVal.s EXTRACTED_DATA_COLLECTION),
           ("deployment_name", JVal.s depName)]) (JVal.s fh) = true := by
      have hdata : (fromRequestData
          [("data", JVal.obj eventData),
           ("collection", JVal.s EXTRACTED_DATA_COLLECTION),
           ("deployment_name", JVal.s depName)]).data = JVal.obj eventData := rfl
      simp [itemHashEq, hdata, hkey, hhash, pyEq, pyEqF, jsize]
    rw [List.filter_append]
    have hkept : (store.filter (fun it =>
        matchesCollDep it
            [("deployment_name", JVal.s depName),
             ("collection", JVal.s EXTRACTED_DATA_COLLECTION),
             ("filter", JVal.obj [("file_hash", JVal.obj [("eq", JVal.s fh)])])] &&
          !(itemHashEq it (JVal.s fh)))).filter (fun it =>
          matchesCollDep it
            [("deployment_name", JVal.s depName),
             ("collection", JVal.s EXTRACTED_DATA_COLLECTION),
             ("filter", JVal.obj [("file_hash", JVal.obj [("eq", JVal.s fh)])])] &&
          itemHashEq it (JVal.s fh)) = [] := by
      rw [List.filter_filter]
      apply List.filter_eq_nil_iff.mpr
      intro a _
      cases hx1 : matchesCollDep a
            [("deployment_name", JVal.s depName),
             ("collection", JVal.s EXTRACTED_DATA_COLLECTION),
             ("filter", JVal.obj [("file_hash", JVal.obj [("eq", JVal.s fh)])])] <;>
        cases hx2 : itemHashEq a (JVal.s fh) <;> simp [hx1, hx2]
    rw [hkept]
    simp [hmatch, hhasheq]

theorem C6_record_extracted_data_dedup_witness :
    (pyGetD [("v", JVal.i 1), ("file_hash", JVal.s "h1")] "file_hash" JVal.null =
      JVal.s "h1") ∧
    (∃ kept,
      kept = List.filter (fun it =>
        matchesCollDep it
            [("deployment_name", JVal.s "_public"),
             ("collection", JVal.s EXTRACTED_DATA_COLLECTION),
             ("filter", JVal.obj [("file_hash", JVal.obj [("eq", JVal.s "h1")])])] &&
          !(itemHashEq it (JVal.s "h1"))) [] ∧
      recordExtractedData [] [("v", JVal.i 1), ("file_hash", JVal.s "h1")] "_public" =
        .ok (kept ++ [fromRequestData
              [("data", JVal.obj [("v", JVal.i 1), ("file_hash", JVal.s "h1")]),
               ("collection", JVal.s EXTRACTED_DATA_COLLECTION),
               ("deployment_name", JVal.s "_public")]],
             (fromRequestData
              [("data", JVal.obj [("v", JVal.i 1), ("file_hash", JVal.s "h1")]),
               ("collection", JVal.s EXTRACTED_DATA_COLLECTION),
               ("deployment_name", JVal.s "_public")]).id) ∧
      ((kept ++ [fromRequestData
              [("data", JVal.obj [("v", JVal.i 1), ("file_hash", JVal.s "h1")]),
               ("collection", JVal.s EXTRACTED_DATA_COLLECTION),
               ("deployment_name", JVal.s "_public")]]).filter (fun it =>
          matchesCollDep it
            [("deployment_name", JVal.s "_public"),
             ("collection", JVal.s EXTRACTED_DATA_COLLECTION),
             ("filter", JVal.obj [("file_hash", JVal.obj [("eq", JVal.s "h1")])])] &&
          itemHashEq it (JVal.s "h1"))).length = 1) :=
  ⟨rfl, C6_record_extracted_data_dedup [] [("v", JVal.i 1), ("file_hash", JVal.s "h1")]
    "_public" "h1" rfl (by simp)⟩

/-! ## Step exception handling (`process_file.py`) -/

/-- Python exceptions as seen by the workflow's `except` clauses:
`InvalidExtractionData` (carrying the invalid item) versus anything
else. -/
inductive PyExc where
  | invalidExtractionData (item : JVal)
  | other (msg : String)
deriving Repr

/-- The events `get_extraction_job_result` can return. -/
inductive ExtractResultEvent where
  | extracted (data : JVal)
  | extractedInvalid (data : JVal)
deriving Repr

/-- The `try`/`except` dispatch of `ProcessFileWorkflow.download_file`:
the catch-all handler logs, emits a status event and re-raises the same
exception (`raise e`). -/
def downloadFileDispatch (outcome : Except PyExc JVal) : Except PyExc JVal :=
  match outcome with
  | .ok v => .ok v
  | .error e => .error e

/-- The `try`/`except` dispatch of
`ProcessFileWorkflow.get_extraction_job_result` over the outcome of
producing the extraction result: success returns `ExtractedEvent`,
`InvalidExtractionData` is caught and converted to
`ExtractedInvalidEvent(e.invalid_item)`, every other exception is logged
and re-raised. -/
def getExtractionJobResultDispatch (outcome : Except PyExc JVal) :
    Except PyExc ExtractResultEvent :=
  match outcome with
  | .ok d => .ok (.extracted d)
  | .error (.invalidExtractionData item) => .ok (.extractedInvalid item)
  | .error (.other msg) => .error (.other msg)

/-- C5 counterexample: an `InvalidExtractionData` exception raised while
producing the extraction result is not re-raised; it is caught and
converted into an `ExtractedInvalidEvent` — a recovery path. -/
theorem C5_counterexample :
    getExtractionJobResultDispatch (.error (.invalidExtractionData (JVal.obj []))) =
      .ok (.extractedInvalid (JVal.obj [])) ∧
    getExtractionJobResultDispatch (.error (.invalidExtractionData (JVal.obj []))) ≠
      .error (.invalidExtractionData (JVal.obj [])) := by
  constructor
  · rfl
  · intro h
    rw [getExtractionJobResultDispatch] at h
    exact Except.noConfusion h

/-- C5 (amended): `download_file` re-raises every exception unchanged, and
`get_extraction_job_result` re-raises every exception except
`InvalidExtractionData`, which it catches and converts into an
`ExtractedInvalidEvent` carrying the invalid item. -/
theorem C5_exception_dispatch (e : PyExc) (msg : String) (item : JVal) :
    downloadFileDispatch (.error e) = .error e ∧
    getExtractionJobResultDispatch (.error (.other msg)) = .error (.other msg) ∧
    getExtractionJobResultDispatch (.error (.invalidExtractionData item)) =
      .ok (.extractedInvalid item) :=
  ⟨rfl, rfl, rfl⟩

/-! ## `create_union_schema` (config.py) -/

/-- `schema.get("properties", {})` viewed as an association list (the
well-formedness hypothesis `propsWF` scopes the theorems to inputs where
the Python code does not raise). -/
def getProps (d : PyDict) : PyDict :=
  match pyGet d "properties" with
  | some (.obj l) => l
  | _ => []

/-- `set(schema.get("required", []))`' raw element list as strings. -/
def requiredOf (d : PyDict) : List String :=
  match pyGet d "required" with
  | some (.arr l) => l.filterMap (fun v => match v with | .s t => some t | _ => none)
  | _ => []

/-- The `properties` entry, when present, is a dictionary (otherwise
`.items()` raises `AttributeError` in Python). -/
def propsWF (d : PyDict) : Bool :=
  match pyGet d "properties" with
  | none => true
  | some (.obj _) => true
  | some _ => false

/-- The `required` entry, when present, is a list of strings (otherwise
`set(...)` or `sorted(...)` raises in Python). -/
def requiredWF (d : PyDict) : Bool :=
  match pyGet d "required" with
  | none => true
  | some (.arr l) => l.all (fun v => match v with | .s _ => true | _ => false)
  | some _ => false

/-- The required-field intersection of `create_union_schema`: start from
the first schema's required set, intersect with each following schema's,
then discard the discriminator. -/
def commonRequired (schemas : List (String × PyDict)) (disc : String) : List String :=
  match schemas with
  | [] => []
  | s0 :: rest =>
    (rest.foldl (fun acc s => acc.filter (fun x => x ∈ requiredOf s.2))
        (requiredOf s0.2).dedup).filter (fun x => x ≠ disc)

/-- The property-collection loop of `create_union_schema` over one
schema's properties: skip the discriminator, first definition wins. -/
def collectPropsAux (disc : String) : PyDict → List (String × JVal) → PyDict
  | acc, [] => acc
  | acc, p :: rest =>
    if p.1 = disc then collectPropsAux disc acc rest
    else if acc.any (fun q => q.1 = p.1) then collectPropsAux disc acc rest
    else collectPropsAux disc (acc ++ [p]) rest

/-- `all_properties` of `create_union_schema`: properties of all schemas
in map order, discriminator excluded, first definition winning. -/
def collectProps (schemas : List (String × PyDict)) (disc : String) : PyDict :=
  schemas.foldl (fun acc s => collectPropsAux disc acc (getProps s.2)) []

/-- The discriminator property added by `create_union_schema`. -/
def discProperty (schemas : List (String × PyDict)) : JVal :=
  JVal.obj [("type", JVal.s "string"),
    ("enum", JVal.arr (schemas.map (fun kv => JVal.s kv.1))),
    ("description", JVal.s "Type of document that was extracted")]

/-- `create_union_schema(schemas, discriminator_field)` from config.py. -/
def createUnionSchema (schemas : List (String × PyDict)) (disc : String) : PyDict :=
  [("type", JVal.s "object"),
   ("properties", JVal.obj ((disc, discProperty schemas) :: collectProps schemas disc)),
   ("required", JVal.arr ((disc :: sortStrings (commonRequired schemas disc)).map JVal.s))]

theorem collectPropsAux_append (disc : String) (l1 l2 : List (String × JVal)) :
    ∀ acc, collectPropsAux disc acc (l1 ++ l2) =
      collectPropsAux disc (collectPropsAux disc acc l1) l2 := by
  induction l1 with
  | nil => intro acc; rfl
  | cons p rest ih =>
    intro acc
    by_cases h1 : p.1 = disc
    · simp [collectPropsAux, h1, ih]
    · by_cases h2 : acc.any (fun q => q.1 = p.1) <;>
        simp [collectPropsAux, h1, h2, ih]

theorem collectProps_eq_flat (disc : String) (schemas : List (String × PyDict)) :
    collectProps schemas disc =
      collectPropsAux disc [] (schemas.flatMap (fun s => getProps s.2)) := by
  rw [collectProps]
  generalize ([] : PyDict) = acc
  induction schemas generalizing acc with
  | nil => rfl
  | cons s rest ih =>
    simp only [List.foldl_cons, List.flatMap_cons, collectPropsAux_append]
    exact ih _

theorem pyGet_eq_map_find (d : PyDict) (p : String) :
    pyGet d p = (d.find? (fun kv => kv.1 = p)).map (fun kv => kv.2) := by
  rw [pyGet]
  cases d.find? (fun kv => kv.1 = p) <;> rfl

theorem pyGet_append (l1 l2 : PyDict) (p : String) :
    pyGet (l1 ++ l2) p = (pyGet l1 p).or (pyGet l2 p) := by
  rw [pyGet_eq_map_find, pyGet_eq_map_find, pyGet_eq_map_find, List.find?_append]
  cases l1.find? (fun kv => kv.1 = p) <;> simp [Option.orElse, Option.or]

theorem pyGet_cons_self (k : String) (v : JVal) (l : PyDict) :
    pyGet ((k, v) :: l) k = some v := by
  rw [pyGet_eq_map_find, List.find?_cons_of_pos _ (by simp)]
  rfl

theorem pyGet_cons_of_ne (k p : String) (v : JVal) (l : PyDict) (hk : ¬ k = p) :
    pyGet ((k, v) :: l) p = pyGet l p := by
  rw [pyGet_eq_map_find, pyGet_eq_map_find, List.find?_cons_of_neg _ (by simpa using hk)]

theorem pyHasKey_iff_pyGet_isSome (d : PyDict) (p : String) :
    pyHasKey d p = true ↔ (pyGet d p).isSome = true := by
  rw [pyHasKey, pyGet_eq_map_find]
  cases hfind : d.find? (fun kv => kv.1 = p) with
  | none =>
    rw [List.find?_eq_none] at hfind
    constructor
    · intro h
      obtain ⟨x, hx, hpx⟩ := List.any_eq_true.mp h
      exact absurd hpx (hfind x hx)
    · intro h
      simp at h
  | some kv =>
    constructor
    · intro _
      simp
    · intro _
      have hkv := @List.find?_some _ (fun kv => decide (kv.1 = p)) kv d hfind
      exact List.any_eq_true.mpr ⟨kv, List.mem_of_find?_eq_some hfind, hkv⟩

theorem collectPropsAux_pyGet (disc p : String) (hp : p ≠ disc) :
    ∀ (l : List (String × JVal)) (acc : PyDict),
      pyGet (collectPropsAux disc acc l) p =
        (pyGet acc p).or ((l.find? (fun q => q.1 = p)).map (fun q => q.2)) := by
  intro l
  induction l with
  | nil =>
    intro acc
    simp [collectPropsAux, Option.or_none]
  | cons q rest ih =>
    intro acc
    by_cases h1 : q.1 = disc
    · have hqp : ¬ q.1 = p := by rw [h1]; exact fun h => hp h.symm
      simp only [collectPropsAux, h1, if_true, ih]
      rw [List.find?_cons_of_neg _ (by simpa using hqp)]
    · by_cases h2 : acc.any (fun r => r.1 = q.1)
      · rw [collectPropsAux, if_neg h1, if_pos h2, ih]
        by_cases hqp : q.1 = p
        · have hsome : (pyGet acc p).isSome = true := by
            rw [← pyHasKey_iff_pyGet_isSome, pyHasKey]
            simpa [hqp] using h2
          rcases hacc : pyGet acc p with _ | v
          · rw [hacc] at hsome
            simp at hsome
          · simp [Option.or]
        · rw [List.find?_cons_of_neg _ (by simpa using hqp)]
      · rw [collectPropsAux, if_neg h1, if_neg h2, ih, pyGet_append, Option.or_assoc]
        by_cases hqp : q.1 = p
        · rw [List.find?_cons_of_pos _ (by simpa using hqp)]
          rw [show pyGet [q] p = some q.2 from by
            rw [pyGet_eq_map_find, List.find?_cons_of_pos _ (by simpa using hqp)]; rfl]
          cases rest.find? (fun r => r.1 = p) <;> rfl
        · rw [List.find?_cons_of_neg _ (by simpa using hqp)]
          rw [show pyGet [q] p = none from by
            rw [pyGet_eq_map_find, List.find?_cons_of_neg _ (by simpa using hqp)]; rfl]
          rw [Option.none_or]

theorem collectPropsAux_pyGet_disc (disc : String) :
    ∀ (l : List (String × JVal)) (acc : PyDict),
      pyGet acc disc = none → pyGet (collectPropsAux disc acc l) disc = none := by
  intro l
  induction l with
  | nil => intro acc h; simpa [collectPropsAux] using h
  | cons q rest ih =>
    intro acc h
    by_cases h1 : q.1 = disc
    · simpa [collectPropsAux, h1] using ih acc h
    · by_cases h2 : acc.any (fun r => r.1 = q.1)
      · simpa [collectPropsAux, h1, h2] using ih acc h
      · rw [collectPropsAux, if_neg h1, if_neg h2]
        apply ih
        rw [pyGet_append, h, Option.none_or]
        rw [pyGet_eq_map_find, List.find?_cons_of_neg _ (by simpa using h1)]
        rfl

theorem foldInter_mem (rest : List (String × PyDict)) :
    ∀ (init : List String) (x : String),
      x ∈ rest.foldl (fun acc s => acc.filter (fun y => y ∈ requiredOf s.2)) init ↔
        x ∈ init ∧ ∀ s ∈ rest, x ∈ requiredOf s.2 := by
  induction rest with
  | nil => intro init x; simp
  | cons s more ih =>
    intro init x
    simp only [List.foldl_cons, ih, List.mem_filter, List.mem_cons, decide_eq_true_eq]
    constructor
    · rintro ⟨⟨hi, hs⟩, hall⟩
      exact ⟨hi, fun t ht => ht.elim (fun he => he ▸ hs) (hall t)⟩
    · rintro ⟨hi, hall⟩
      exact ⟨⟨hi, hall s (Or.inl rfl)⟩, fun t ht => hall t (Or.inr ht)⟩

theorem foldInter_nodup (rest : List (String × PyDict)) :
    ∀ (init : List String), init.Nodup →
      (rest.foldl (fun acc s => acc.filter (fun y => y ∈ requiredOf s.2)) init).Nodup := by
  induction rest with
  | nil => intro init h; simpa using h
  | cons s more ih =>
    intro init h
    exact ih _ (List.Nodup.filter _ h)

/-- C2: for a non-empty, well-formed map of input schemas,
`create_union_schema` returns a schema whose `required` list is exactly
the discriminator followed by the sorted intersection of the input
schemas' required sets with the discriminator removed, and whose
`properties` are the discriminator property followed by the properties of
all input schemas except the discriminator, the first definition in map
order winning on name collisions. -/
theorem C2_create_union_schema
    (schemas : List (String × PyDict)) (disc : String)
    (hne : schemas ≠ [])
    (hwf : ∀ s ∈ schemas, propsWF s.2 = true ∧ requiredWF s.2 = true) :
    ∃ L : List String,
      pyGet (createUnionSchema schemas disc) "required" =
        some (JVal.arr ((disc :: L).map JVal.s)) ∧
      List.Sorted strLeP L ∧ L.Nodup ∧
      (∀ x, x ∈ L ↔ x ≠ disc ∧ ∀ s ∈ schemas, x ∈ requiredOf s.2) ∧
      pyGet (createUnionSchema schemas disc) "properties" =
        some (JVal.obj ((disc, discProperty schemas) :: collectProps schemas disc)) ∧
      pyGet ((disc, discProperty schemas) :: collectProps schemas disc) disc =
        some (discProperty schemas) ∧
      (∀ p, p ≠ disc →
        pyGet ((disc, discProperty schemas) :: collectProps schemas disc) p =
          ((schemas.flatMap (fun s => getProps s.2)).find? (fun q => q.1 = p)).map
            (fun q => q.2)) := by
  refine ⟨sortStrings (commonRequired schemas disc), by rfl, sortStrings_sorted _, ?_, ?_, by rfl,
    pyGet_cons_self disc _ _, ?_⟩
  · refine (sortStrings_perm _).nodup_iff.mpr ?_
    rcases schemas with _ | ⟨s0, rest⟩
    · exact List.nodup_nil
    · exact List.Nodup.filter _ (foldInter_nodup rest _ (List.nodup_dedup _))
  · intro x
    rw [(sortStrings_perm _).mem_iff]
    rcases schemas with _ | ⟨s0, rest⟩
    · exact absurd rfl hne
    · simp only [commonRequired, List.mem_filter, foldInter_mem, List.mem_dedup,
        decide_eq_true_eq]
      constructor
      · rintro ⟨⟨h0, hrest⟩, hd⟩
        refine ⟨hd, fun t ht => ?_⟩
        rw [List.mem_cons] at ht
        rcases ht with he | ht
        · exact he ▸ h0
        · exact hrest t ht
      · rintro ⟨hd, hall⟩
        exact ⟨⟨hall s0 (by simp), fun t ht => hall t (by simp [ht])⟩, hd⟩
  · intro p hp
    have hchar := collectPropsAux_pyGet disc p hp (schemas.flatMap (fun s => getProps s.2)) []
    rw [← collectProps_eq_flat] at hchar
    rw [show pyGet ([] : PyDict) p = none from rfl, Option.none_or] at hchar
    rw [pyGet_cons_of_ne disc p _ _ (fun h => hp h.symm)]
    exact hchar


/-- Two example extraction schemas for the C2 witness. -/
def unionSchemasExample : List (String × PyDict) :=
  [("10-K", [("type", JVal.s "object"),
             ("properties", JVal.obj [("a", JVal.obj [("type", JVal.s "string")]),
                                      ("b", JVal.obj [("type", JVal.s "integer")])]),
             ("required", JVal.arr [JVal.s "b", JVal.s "a"])]),
   ("8-K", [("type", JVal.s "object"),
            ("properties", JVal.obj [("b", JVal.obj [("type", JVal.s "number")]),
                                     ("c", JVal.obj [("type", JVal.s "string")])]),
            ("required", JVal.arr [JVal.s "b"])])]

theorem C2_create_union_schema_witness :
    (unionSchemasExample ≠ [] ∧
      ∀ s ∈ unionSchemasExample, propsWF s.2 = true ∧ requiredWF s.2 = true) ∧
    (∃ L : List String,
      pyGet (createUnionSchema unionSchemasExample "document_type") "required" =
        some (JVal.arr (("document_type" :: L).map JVal.s)) ∧
      List.Sorted strLeP L ∧ L.Nodup ∧
      (∀ x, x ∈ L ↔ x ≠ "document_type" ∧
        ∀ s ∈ unionSchemasExample, x ∈ requiredOf s.2) ∧
      pyGet (createUnionSchema unionSchemasExample "document_type") "properties" =
        some (JVal.obj (("document_type", discProperty unionSchemasExample) ::
          collectProps unionSchemasExample "document_type")) ∧
      pyGet (("document_type", discProperty unionSchemasExample) ::
          collectProps unionSchemasExample "document_type") "document_type" =
        some (discProperty unionSchemasExample) ∧
      (∀ p, p ≠ "document_type" →
        pyGet (("document_type", discProperty unionSchemasExample) ::
            collectProps unionSchemasExample "document_type") p =
          ((unionSchemasExample.flatMap (fun s => getProps s.2)).find?
            (fun q => q.1 = p)).map (fun q => q.2))) :=
  ⟨⟨by simp [unionSchemasExample], by decide⟩,
    C2_create_union_schema unionSchemasExample "document_type"
      (by simp [unionSchemasExample]) (by decide)⟩

/-! ## The seeded pseudo-random generator (`_deterministic.py`)

Python's `random.Random` is a Mersenne twister.  It is modelled here by a
64-bit linear congruential generator: every property proved below (and
every claim that mentions the generator) depends only on the generator
being a pure deterministic state machine driven by the seed, never on the
concrete bit stream. -/

/-- The pure PRNG state standing in for `random.Random`. -/
structure PyRng where
  state : Nat
deriving Repr, DecidableEq

/-- `random.Random(seed)`. -/
def PyRng.ofSeed (seed : Int) : PyRng :=
  ⟨(seed.emod 18446744073709551616).toNat⟩

/-- Draw the next 64-bit word. -/
def PyRng.next (r : PyRng) : Nat × PyRng :=
  let s := (6364136223846793005 * r.state + 1442695040888963407) % 18446744073709551616
  (s, ⟨s⟩)

/-- `Random._randbelow(n)`; `n = 0` yields 0 without consuming state
(CPython behaviour). -/
def PyRng.randbelow (n : Nat) (r : PyRng) : Nat × PyRng :=
  if n = 0 then (0, r)
  else
    let (x, r2) := r.next
    (x % n, r2)

/-- `Random.randint(a, b)` (inclusive; raises on an empty range). -/
def PyRng.randint (a b : Int) (r : PyRng) : Except String (Int × PyRng) :=
  if a ≤ b then
    let (x, r2) := PyRng.randbelow (b - a + 1).toNat r
    .ok (a + (x : Int), r2)
  else .error "ValueError: empty range for randrange"

/-- `Random.random()`: a rational in `[0, 1)` with 53 bits. -/
def PyRng.random (r : PyRng) : Rat × PyRng :=
  let (x, r2) := r.next
  (((x % 9007199254740992 : Nat) : Rat) / (9007199254740992 : Rat), r2)

/-- `Random.uniform(a, b) = a + (b - a) * random()`. -/
def PyRng.uniform (a b : Rat) (r : PyRng) : Rat × PyRng :=
  let (u, r2) := PyRng.random r
  (a + (b - a) * u, r2)

/-- The partial-pool-shuffle loop of `Random.sample` (the branch CPython
takes for the 25-word population used here). -/
def PyRng.sampleGo (pool : List String) (n : Nat) : Nat → Nat → PyRng → List String →
    List String × PyRng
  | 0, _, r, acc => (acc.reverse, r)
  | k + 1, idx, r, acc =>
    let (j, r2) := PyRng.randbelow (n - idx) r
    let v := pool.getD j ""
    let pool2 := pool.set j (pool.getD (n - idx - 1) "")
    PyRng.sampleGo pool2 n k (idx + 1) r2 (v :: acc)

/-- `Random.sample(population, k)` for string populations. -/
def PyRng.sampleStrings (population : List String) (k : Nat) (r : PyRng) :
    Except String (List String × PyRng) :=
  if k ≤ population.length then
    .ok (PyRng.sampleGo population population.length k 0 r [])
  else .error "ValueError: Sample larger than population or is negative"

/-- Python `str.capitalize()`: first character upper-cased, the rest
lower-cased. -/
def pyCapitalize (str : String) : String :=
  match str.data with
  | [] => ""
  | c :: rest => String.mk (c.toUpper :: rest.map Char.toLower)

/-- The word list of `generate_text_blob`. -/
def pyWords : List String :=
  ["aurora", "copper", "delta", "ember", "fable", "glyph", "harbor", "iris",
   "juniper", "kepler", "lumen", "monarch", "nylon", "onyx", "paragon", "quartz",
   "raptor", "solstice", "topaz", "umbra", "verdant", "willow", "xenon", "yonder",
   "zephyr"]

/-- The sentence loop of `generate_text_blob`. -/
def genSentences : Nat → PyRng → List String → Except String (List String × PyRng)
  | 0, r, acc => .ok (acc.reverse, r)
  | n + 1, r, acc => do
    let (len, r2) ← PyRng.randint 6 12 r
    let (chosen, r3) ← PyRng.sampleStrings pyWords len.toNat r2
    let sentence := pyCapitalize (String.intercalate " " chosen) ++ "."
    genSentences n r3 (sentence :: acc)

/-- `generate_text_blob(seed, sentences)`: a fresh `Random(seed)` drives
the whole blob. -/
def genTextBlob (seed : Int) (sentences : Nat) : Except String String := do
  let r := PyRng.ofSeed seed
  let (pieces, _) ← genSentences sentences r []
  pure (String.intercalate " " pieces)

/-! ## `_generate_value` (`_deterministic.py`) -/

/-- Python truthiness of a JSON value. -/
def pyTruthy : JVal → Bool
  | .null => false
  | .b x => x
  | .i n => decide (n ≠ 0)
  | .f q => decide (q ≠ 0)
  | .s t => decide (t ≠ "")
  | .arr l => !l.isEmpty
  | .obj l => !l.isEmpty

/-- Python `len`; raises `TypeError` for unsized values. -/
def pyLen : JVal → Except String Nat
  | .s t => .ok t.length
  | .arr l => .ok l.length
  | .obj l => .ok l.length
  | _ => .error "TypeError: object has no len"

/-- Python subscripting `v[idx]` with an integer index as used by the
generator (non-negative indices; dictionaries have string keys, so an
integer subscript raises `KeyError`). -/
def pyIndexJ : JVal → Int → Except String JVal
  | .arr l, idx =>
    if h : 0 ≤ idx ∧ idx.toNat < l.length then .ok (l.get ⟨idx.toNat, h.2⟩)
    else .error "IndexError: list index out of range"
  | .s t, idx =>
    if h : 0 ≤ idx ∧ idx.toNat < t.data.length then
      .ok (.s (String.mk [t.data.get ⟨idx.toNat, h.2⟩]))
    else .error "IndexError: string index out of range"
  | .obj _, _ => .error "KeyError"
  | _, _ => .error "TypeError: value is not subscriptable"

/-- Python `+` between a schema value and a numeric literal (`bool` counts
as an integer; anything non-numeric raises `TypeError`). -/
def pyAdd2 (a b : JVal) : Except String JVal :=
  match a, b with
  | .i x, .i y => .ok (.i (x + y))
  | .i x, .b y => .ok (.i (x + cond y 1 0))
  | .b x, .i y => .ok (.i (cond x 1 0 + y))
  | .b x, .b y => .ok (.i (cond x 1 0 + cond y 1 0))
  | a, b =>
    match pyNum a, pyNum b with
    | some x, some y => .ok (.f (x + y))
    | _, _ => .error "TypeError: unsupported operand types for +"

/-- Python `max(a, b)`: the second argument wins only when strictly
greater. -/
def pyMax2 (a b : JVal) : Except String JVal := do
  let o ← pyCompare b a
  pure (if o = .gt then b else a)

/-- Python `min(a, b)`: the second argument wins only when strictly
smaller. -/
def pyMin2 (a b : JVal) : Except String JVal := do
  let o ← pyCompare b a
  pure (if o = .lt then b else a)

/-- Basic `int(str)` parsing: optional surrounding whitespace, optional
sign, then decimal digits (CPython also allows single underscores between
digits; no claim depends on such strings). -/
def pyStrToInt (t : String) : Except String Int :=
  let core := (t.data.dropWhile (fun c => c = ' ')).reverse.dropWhile (fun c => c = ' ')
    |>.reverse
  let (sign, digits) :=
    match core with
    | '-' :: rest => ((-1 : Int), rest)
    | '+' :: rest => ((1 : Int), rest)
    | rest => ((1 : Int), rest)
  if digits ≠ [] ∧ digits.all (fun c => c.isDigit) then
    .ok (sign * (digits.foldl (fun acc c => 10 * acc + ((c.toNat - 48 : Nat) : Int)) 0))
  else .error "ValueError: invalid literal for int"

/-- Numeric value of a digit list. -/
def digitsVal (l : List Char) : Rat :=
  l.foldl (fun acc c => 10 * acc + ((c.toNat - 48 : Nat) : Rat)) 0

/-- Basic `float(str)` parsing: optional sign, digits, optional fractional
part (exponents and special forms are not modelled; no claim depends on
them). -/
def pyStrToFloat (t : String) : Except String Rat :=
  let core := (t.data.dropWhile (fun c => c = ' ')).reverse.dropWhile (fun c => c = ' ')
    |>.reverse
  let (sign, rest) :=
    match core with
    | '-' :: rest => ((-1 : Rat), rest)
    | '+' :: rest => ((1 : Rat), rest)
    | rest => ((1 : Rat), rest)
  let intPart : List Char := rest.takeWhile Char.isDigit
  let after : List Char := rest.drop intPart.length
  match after with
  | [] =>
    if intPart ≠ [] then .ok (sign * digitsVal intPart)
    else .error "ValueError: could not convert string to float"
  | '.' :: fr =>
    let fracDigits : List Char := fr.takeWhile Char.isDigit
    if fr.drop fracDigits.length = [] ∧ (intPart ≠ [] ∨ fracDigits ≠ []) then
      .ok (sign * (digitsVal intPart + digitsVal fracDigits / (10 : Rat) ^ fracDigits.length))
    else .error "ValueError: could not convert string to float"
  | _ => .error "ValueError: could not convert string to float"

/-- `int(x)`: truncation toward zero for floats, string parsing for
strings, `TypeError` otherwise. -/
def pyToIntJ : JVal → Except String Int
  | .i n => .ok n
  | .b x => .ok (cond x 1 0)
  | .f q => .ok (Int.tdiv q.num q.den)
  | .s t => pyStrToInt t
  | _ => .error "TypeError: int() argument"

/-- `float(x)`. -/
def pyToFloatJ : JVal → Except String Rat
  | .i n => .ok (n : Rat)
  | .b x => .ok (cond x 1 0)
  | .f q => .ok q
  | .s t => pyStrToFloat t
  | _ => .error "TypeError: float() argument"

/-- `round(x, 2)` on exact rationals, half to even (binary floating-point
artifacts are not modelled; no claim depends on rounding values). -/
def pyRound2 (q : Rat) : Rat :=
  let scaled := q * 100
  let fl : Int := ⌊scaled⌋
  let frac := scaled - (fl : Rat)
  if frac < 1 / 2 then (fl : Rat) / 100
  else if 1 / 2 < frac then ((fl + 1 : Int) : Rat) / 100
  else if fl % 2 = 0 then (fl : Rat) / 100
  else ((fl + 1 : Int) : Rat) / 100

/-- `randint` applied to schema values: CPython's `randrange` rejects
non-integer bounds (`bool` is an `int`). -/
def randintJ (a b : JVal) (r : PyRng) : Except String (Int × PyRng) := do
  let ai ← match a with
    | .i n => Except.ok n
    | .b x => Except.ok (cond x 1 0)
    | _ => Except.error "TypeError: randrange argument"
  let bi ← match b with
    | .i n => Except.ok n
    | .b x => Except.ok (cond x 1 0)
    | _ => Except.error "TypeError: randrange argument"
  PyRng.randint ai bi r

/-- `rng.choice(seq)`: `seq[rng._randbelow(len(seq))]`. -/
def pyChoiceJ (v : JVal) (r : PyRng) : Except String (JVal × PyRng) := do
  let n ← pyLen v
  let (j, r2) := PyRng.randbelow n r
  let x ← pyIndexJ v (j : Int)
  pure (x, r2)

/-- The `depth > 8` branch of `_generate_value`: build the three-element
tuple left to right (the text blob runs on its own fresh generator), then
choose among them. -/
def genDepthLimit (r : PyRng) : Except String (JVal × PyRng) := do
  let (v1, r2) ← PyRng.randint 1 999 r
  let (v2, r3) := PyRng.random r2
  let (sd, r4) ← PyRng.randint 0 1000000 r3
  let blob ← genTextBlob sd 1
  let opts : List JVal := [.i v1, .f v2, .s blob]
  let (j, r5) := PyRng.randbelow opts.length r4
  match opts[j]? with
  | some v => .ok (v, r5)
  | none => .error "IndexError"

/-- The final fall-through of `_generate_value` (also the `None`-schema
branch): a one-sentence text blob from a freshly seeded generator. -/
def genFallback (r : PyRng) : Except String (JVal × PyRng) := do
  let (sd, r2) ← PyRng.randint 0 1000000 r
  let blob ← genTextBlob sd 1
  .ok (.s blob, r2)

/-- The `enum` branch: `options[rng.randint(0, len(options) - 1)]`. -/
def genEnumBranch (options : JVal) (r : PyRng) : Except String (JVal × PyRng) := do
  let n ← pyLen options
  let (idx, r2) ← PyRng.randint 0 ((n : Int) - 1) r
  let v ← pyIndexJ options idx
  pure (v, r2)

/-- The `integer` branch. -/
def genIntegerBranch (m : PyDict) (r : PyRng) : Except String (JVal × PyRng) := do
  let minimum := pyGetD m "minimum" (.i 0)
  let dflt ← pyAdd2 minimum (.i 500)
  let maximum := pyGetD m "maximum" dflt
  let a ← pyToIntJ minimum
  let b ← pyToIntJ maximum
  let (v, r2) ← PyRng.randint a b r
  pure (.i v, r2)

/-- The `number` branch. -/
def genNumberBranch (m : PyDict) (r : PyRng) : Except String (JVal × PyRng) := do
  let minimum := pyGetD m "minimum" (.f 0)
  let dflt ← pyAdd2 minimum (.f 500)
  let maximum := pyGetD m "maximum" dflt
  let a ← pyToFloatJ minimum
  let b ← pyToFloatJ maximum
  let (u, r2) := PyRng.uniform a b r
  pure (.f (pyRound2 u), r2)

/-- The `boolean` branch: `rng.choice((True, False))`. -/
def genBooleanBranch (r : PyRng) : JVal × PyRng :=
  let (j, r2) := PyRng.randbelow 2 r
  (.b (j = 0), r2)

/-- The `string` branch; `format == "date-time"` returns the wall-clock
timestamp `now` (`utcnow().isoformat()` in the source) without consuming
generator state. -/
def genStringBranch (m : PyDict) (r : PyRng) (now : String) :
    Except String (JVal × PyRng) :=
  let fmt := pyGetD m "format" .null
  if pyEq fmt (.s "date-time") then .ok (.s now, r)
  else if pyEq fmt (.s "email") then do
    let (n, r2) ← PyRng.randint 1000 9999 r
    .ok (.s ("user" ++ toString n ++ "@example.com"), r2)
  else if pyEq fmt (.s "uri") then do
    let (n, r2) ← PyRng.randint 1000 9999 r
    .ok (.s ("https://example.com/" ++ toString n), r2)
  else do
    let minLen := pyGetD m "minLength" (.i 5)
    let dflt ← pyMax2 (.i 10) minLen
    let maxLen := pyGetD m "maxLength" dflt
    let plus ← pyAdd2 minLen (.i 5)
    let upper ← pyMin2 plus maxLen
    let (length, r2) ← randintJ minLen upper r
    let (sd, r3) ← PyRng.randint 0 1000000 r2
    let blob ← genTextBlob sd (max 1 (Int.fdiv length 5)).toNat
    .ok (.s blob, r3)

/-- Sequential generation over a list of element schemas, threading the
generator left to right (the list comprehensions of `_generate_value`). -/
def genSeq (gen : JVal → PyRng → Except String (JVal × PyRng)) :
    List JVal → PyRng → Except String (List JVal × PyRng)
  | [], r => .ok ([], r)
  | x :: xs, r => do
    let (v, r2) ← gen x r
    let (vs, r3) ← genSeq gen xs r2
    pure (v :: vs, r3)

/-- Sequential generation over an association list of property schemas in
insertion order (the `object` branch's loop). -/
def genSeqPairs (gen : JVal → PyRng → Except String (JVal × PyRng)) :
    List (String × JVal) → PyRng → Except String (List (String × JVal) × PyRng)
  | [], r => .ok ([], r)
  | (k, sub) :: xs, r => do
    let (v, r2) ← gen sub r
    let (vs, r3) ← genSeqPairs gen xs r2
    pure ((k, v) :: vs, r3)

/-- The `Mapping` (dict-schema) arm of `_generate_value`, with the
recursive generator for subschemas (already at `depth + 1`) passed in as
`recur`.  The branches are tried in source order: truthy `enum`, then
`type` in \x7bobject, array, integer, number, boolean, string, null\x7d,
then `oneOf` / `anyOf`, then the fall-through text blob. -/
def genObjBranch (recur : JVal → PyRng → Except String (JVal × PyRng))
    (m : PyDict) (rng : PyRng) (now : String) : Except String (JVal × PyRng) :=
  if pyHasKey m "enum" && pyTruthy (pyGetD m "enum" .null) then
    genEnumBranch (pyGetD m "enum" .null) rng
  else if pyEq (pyGetD m "type" .null) (.s "object") then
    match pyGetD m "properties" (.obj []) with
    | .obj props => do
      let (kvs, r2) ← genSeqPairs recur props rng
      pure (.obj kvs, r2)
    | _ => .error "AttributeError: object has no attribute items"
  else if pyEq (pyGetD m "type" .null) (.s "array") then do
    let minItems := pyGetD m "minItems" (.i 1)
    let dflt ← pyMax2 (.i 3) minItems
    let maxItems := pyGetD m "maxItems" dflt
    let plus ← pyAdd2 minItems (.i 2)
    let upper ← pyMin2 plus maxItems
    let (len, r2) ← randintJ minItems upper rng
    let (vs, r3) ← genSeq recur (List.replicate len.toNat (pyGetD m "items" (.obj []))) r2
    pure (.arr vs, r3)
  else if pyEq (pyGetD m "type" .null) (.s "integer") then genIntegerBranch m rng
  else if pyEq (pyGetD m "type" .null) (.s "number") then genNumberBranch m rng
  else if pyEq (pyGetD m "type" .null) (.s "boolean") then .ok (genBooleanBranch rng)
  else if pyEq (pyGetD m "type" .null) (.s "string") then genStringBranch m rng now
  else if pyEq (pyGetD m "type" .null) (.s "null") then .ok (.null, rng)
  else if pyHasKey m "oneOf" then do
    let (option, r2) ← pyChoiceJ (pyGetD m "oneOf" .null) rng
    recur option r2
  else if pyHasKey m "anyOf" then do
    let (option, r2) ← pyChoiceJ (pyGetD m "anyOf" .null) rng
    recur option r2
  else genFallback rng

/-- `_generate_value(schema, rng, depth)` with the wall-clock timestamp
`now` as an explicit argument (it is read only in the `date-time` string
branch), as one step of recursion with the recursive generator passed
in as `recur`. -/
def genValueStep (recur : JVal → PyRng → Nat → String → Except String (JVal × PyRng))
    (schema : JVal) (rng : PyRng) (depth : Nat) (now : String) :
    Except String (JVal × PyRng) :=
  if depth > 8 then genDepthLimit rng
  else
    match schema with
    | .null => genFallback rng
    | .arr items => do
      let (vs, r2) ← genSeq (fun sub r => recur sub r (depth + 1) now) items rng
      pure (.arr vs, r2)
    | .s str => do
      let (n, r2) ← PyRng.randint 100 999 rng
      pure (.s (str ++ "-" ++ toString n), r2)
    | .obj m => genObjBranch (fun sub r => recur sub r (depth + 1) now) m rng now
    | _ => genFallback rng

/-- Fuel-indexed tying of the knot: fuel decreases at every recursive
call while `depth` increases, so fuel 10 with initial depth 0 never
reaches the fuel-exhausted branch. -/
def genValueF : Nat → JVal → PyRng → Nat → String → Except String (JVal × PyRng)
  | 0, _, _, _, _ => .error "model: fuel exhausted"
  | fuel + 1, schema, rng, depth, now =>
    genValueStep (fun sub r d n => genValueF fuel sub r d n) schema rng depth now
termination_by structural fuel _ _ _ _ => fuel

/-- `generate_data_from_schema(schema, seed)` (the wall-clock timestamp is
an explicit argument). -/
def generateDataFromSchema (schema : JVal) (seed : Int) (now : String) :
    Except String JVal :=
  (genValueF 10 schema (PyRng.ofSeed seed) 0 now).map (fun p => p.1)

/-! ## Determinism of the generator (claim C1)

`_generate_value` reads the wall clock (`datetime.now(timezone.utc)`)
in exactly one place: the `format == "date-time"` arm of the string
branch.  `noDT` rules that arm out syntactically, for a schema and every
value nested inside it; under `noDT` the generator ignores `now`. -/

mutual

/-- No subvalue of the schema is an object carrying `type: string`
together with `format: date-time`. -/
def noDT : JVal → Bool
  | .obj m =>
    (!(pyEq (pyGetD m "type" .null) (.s "string") &&
       pyEq (pyGetD m "format" .null) (.s "date-time"))) && noDTPairs m
  | .arr l => noDTList l
  | _ => true
termination_by structural v => v

/-- `noDT` over a list of values. -/
def noDTList : List JVal → Bool
  | [] => true
  | x :: xs => noDT x && noDTList xs
termination_by structural l => l

/-- `noDT` over the values of an association list. -/
def noDTPairs : List (String × JVal) → Bool
  | [] => true
  | (_, v) :: xs => noDT v && noDTPairs xs
termination_by structural l => l

end

theorem noDTList_mem {l : List JVal} (h : noDTList l = true) :
    ∀ x ∈ l, noDT x = true := by
  induction l with
  | nil => intro x hx; cases hx
  | cons y ys ih =>
    simp only [noDTList, Bool.and_eq_true] at h
    intro x hx
    rcases List.mem_cons.mp hx with hxy | hx2
    · rw [hxy]; exact h.1
    · exact ih h.2 x hx2

theorem noDTPairs_mem {l : List (String × JVal)} (h : noDTPairs l = true) :
    ∀ kv ∈ l, noDT kv.2 = true := by
  induction l with
  | nil => intro kv hkv; cases hkv
  | cons y ys ih =>
    obtain ⟨k, v⟩ := y
    simp only [noDTPairs, Bool.and_eq_true] at h
    intro kv hkv
    rcases List.mem_cons.mp hkv with hk1 | hk2
    · rw [hk1]; exact h.1
    · exact ih h.2 kv hk2

theorem noDT_pyGet {m : PyDict} (h : noDTPairs m = true) {k : String} {v : JVal}
    (hv : pyGet m k = some v) : noDT v = true := by
  rw [pyGet] at hv
  cases hfind : List.find? (fun kv => decide (kv.1 = k)) m with
  | none => rw [hfind] at hv; cases hv
  | some kv =>
    rw [hfind] at hv
    injection hv with hv2
    rw [← hv2]
    exact noDTPairs_mem h kv (List.mem_of_find?_eq_some hfind)

theorem noDT_pyGetD {m : PyDict} (h : noDTPairs m = true) (k : String) {d : JVal}
    (hd : noDT d = true) : noDT (pyGetD m k d) = true := by
  rw [pyGetD]
  cases hv : pyGet m k with
  | none => simpa using hd
  | some v => simpa using noDT_pyGet h hv

theorem pyIndexJ_noDT {v : JVal} (h : noDT v = true) {idx : Int} {x : JVal}
    (hx : pyIndexJ v idx = Except.ok x) : noDT x = true := by
  cases v with
  | arr l =>
    simp only [pyIndexJ] at hx
    split at hx
    · injection hx with hx2
      rw [← hx2]
      exact noDTList_mem (by simpa [noDT] using h) _ (List.get_mem l _ _)
    · cases hx
  | s t =>
    simp only [pyIndexJ] at hx
    split at hx
    · injection hx with hx2; rw [← hx2]; rfl
    · cases hx
  | obj m => simp only [pyIndexJ] at hx; cases hx
  | null => simp only [pyIndexJ] at hx; cases hx
  | b y => simp only [pyIndexJ] at hx; cases hx
  | i n => simp only [pyIndexJ] at hx; cases hx
  | f q => simp only [pyIndexJ] at hx; cases hx

theorem pyChoiceJ_noDT {v : JVal} (h : noDT v = true) {r r2 : PyRng} {x : JVal}
    (hx : pyChoiceJ v r = Except.ok (x, r2)) : noDT x = true := by
  rw [pyChoiceJ] at hx
  cases hn : pyLen v with
  | error e => rw [hn] at hx; cases hx
  | ok n =>
    rw [hn] at hx
    simp only [bind, Except.bind] at hx
    cases hix : pyIndexJ v ((PyRng.randbelow n r).1 : Int) with
    | error e => rw [hix] at hx; cases hx
    | ok y =>
      rw [hix] at hx
      simp only [pure, Except.pure] at hx
      injection hx with hx2
      have hy : y = x := congrArg Prod.fst hx2
      rw [← hy]
      exact pyIndexJ_noDT h hix

theorem genStringBranch_det (m : PyDict) (r : PyRng) (t1 t2 : String)
    (h : pyEq (pyGetD m "format" JVal.null) (JVal.s "date-time") = false) :
    genStringBranch m r t1 = genStringBranch m r t2 := by
  rw [genStringBranch, genStringBranch]
  simp only [h, Bool.false_eq_true, if_false]

theorem bindCongr {α β : Type} {x : Except String α} {f g : α → Except String β}
    (h : ∀ a, f a = g a) : x >>= f = x >>= g := by
  cases x with
  | error e => rfl
  | ok a => exact h a

theorem genSeq_congr (g1 g2 : JVal → PyRng → Except String (JVal × PyRng)) :
    ∀ (l : List JVal), (∀ x ∈ l, ∀ r, g1 x r = g2 x r) →
    ∀ r, genSeq g1 l r = genSeq g2 l r := by
  intro l
  induction l with
  | nil => intro _ r; rfl
  | cons x xs ih =>
    intro hg r
    simp only [genSeq]
    rw [hg x (List.mem_cons_self x xs) r]
    apply bindCongr
    intro p
    obtain ⟨v, r2⟩ := p
    rw [ih (fun y hy rr => hg y (List.mem_cons_of_mem x hy) rr) r2]

theorem genSeqPairs_congr (g1 g2 : JVal → PyRng → Except String (JVal × PyRng)) :
    ∀ (l : List (String × JVal)), (∀ kv ∈ l, ∀ r, g1 kv.2 r = g2 kv.2 r) →
    ∀ r, genSeqPairs g1 l r = genSeqPairs g2 l r := by
  intro l
  induction l with
  | nil => intro _ r; rfl
  | cons x xs ih =>
    intro hg r
    obtain ⟨k, sub⟩ := x
    simp only [genSeqPairs]
    rw [hg (k, sub) (List.mem_cons_self (k, sub) xs) r]
    apply bindCongr
    intro p
    obtain ⟨v, r2⟩ := p
    rw [ih (fun y hy rr => hg y (List.mem_cons_of_mem (k, sub) hy) rr) r2]

theorem genObjBranch_det (g1 g2 : JVal → PyRng → Except String (JVal × PyRng))
    (m : PyDict) (rng : PyRng) (t1 t2 : String)
    (hm : noDT (JVal.obj m) = true)
    (hg : ∀ x, noDT x = true → ∀ r, g1 x r = g2 x r) :
    genObjBranch g1 m rng t1 = genObjBranch g2 m rng t2 := by
  have hsplit : ((!(pyEq (pyGetD m "type" JVal.null) (JVal.s "string") &&
      pyEq (pyGetD m "format" JVal.null) (JVal.s "date-time"))) &&
      noDTPairs m) = true := by simpa [noDT] using hm
  simp only [Bool.and_eq_true] at hsplit
  have hpairs : noDTPairs m = true := hsplit.2
  have hhead : (pyEq (pyGetD m "type" JVal.null) (JVal.s "string") &&
      pyEq (pyGetD m "format" JVal.null) (JVal.s "date-time")) = false := by
    cases hb : (pyEq (pyGetD m "type" JVal.null) (JVal.s "string") &&
        pyEq (pyGetD m "format" JVal.null) (JVal.s "date-time")) with
    | false => rfl
    | true => rw [hb] at hsplit; simp at hsplit
  rw [genObjBranch, genObjBranch]
  by_cases henum : (pyHasKey m "enum" && pyTruthy (pyGetD m "enum" JVal.null)) = true
  · simp only [if_pos henum]
  · simp only [if_neg henum]
    by_cases hob : pyEq (pyGetD m "type" JVal.null) (JVal.s "object") = true
    · simp only [if_pos hob]
      cases hprops : pyGetD m "properties" (JVal.obj []) with
      | obj props =>
        have hpv : noDT (JVal.obj props) = true := by
          rw [← hprops]; exact noDT_pyGetD hpairs "properties" rfl
        have hpp : noDTPairs props = true := by
          simp only [noDT, Bool.and_eq_true] at hpv; exact hpv.2
        dsimp only
        rw [genSeqPairs_congr g1 g2 props
              (fun kv hkv r => hg kv.2 (noDTPairs_mem hpp kv hkv) r) rng]
      | null => rfl
      | b y => rfl
      | i n => rfl
      | f q => rfl
      | s t => rfl
      | arr l => rfl
    · simp only [if_neg hob]
      by_cases har : pyEq (pyGetD m "type" JVal.null) (JVal.s "array") = true
      · simp only [if_pos har]
        have hit : noDT (pyGetD m "items" (JVal.obj [])) = true :=
          noDT_pyGetD hpairs "items" rfl
        apply bindCongr
        intro dflt
        apply bindCongr
        intro plus
        apply bindCongr
        intro upper
        apply bindCongr
        intro p
        obtain ⟨len, r2⟩ := p
        dsimp only
        rw [genSeq_congr g1 g2
              (List.replicate len.toNat (pyGetD m "items" (JVal.obj [])))
              (fun x hx r => by
                rw [List.eq_of_mem_replicate hx]
                exact hg _ hit r) r2]
      · simp only [if_neg har]
        by_cases hint : pyEq (pyGetD m "type" JVal.null) (JVal.s "integer") = true
        · simp only [if_pos hint]
        · simp only [if_neg hint]
          by_cases hnum : pyEq (pyGetD m "type" JVal.null) (JVal.s "number") = true
          · simp only [if_pos hnum]
          · simp only [if_neg hnum]
            by_cases hbool : pyEq (pyGetD m "type" JVal.null) (JVal.s "boolean") = true
            · simp only [if_pos hbool]
            · simp only [if_neg hbool]
              by_cases hstr : pyEq (pyGetD m "type" JVal.null) (JVal.s "string") = true
              · simp only [if_pos hstr]
                have hfmt : pyEq (pyGetD m "format" JVal.null)
                    (JVal.s "date-time") = false := by
                  rw [hstr, Bool.true_and] at hhead; exact hhead
                exact genStringBranch_det m rng t1 t2 hfmt
              · simp only [if_neg hstr]
                by_cases hnull : pyEq (pyGetD m "type" JVal.null) (JVal.s "null") = true
                · simp only [if_pos hnull]
                · simp only [if_neg hnull]
                  by_cases hone : pyHasKey m "oneOf" = true
                  · simp only [if_pos hone]
                    have hov : noDT (pyGetD m "oneOf" JVal.null) = true :=
                      noDT_pyGetD hpairs "oneOf" rfl
                    cases hc : pyChoiceJ (pyGetD m "oneOf" JVal.null) rng with
                    | error e => rfl
                    | ok p =>
                      obtain ⟨option, r2⟩ := p
                      exact hg option (pyChoiceJ_noDT hov hc) r2
                  · simp only [if_neg hone]
                    by_cases hany : pyHasKey m "anyOf" = true
                    · simp only [if_pos hany]
                      have hav : noDT (pyGetD m "anyOf" JVal.null) = true :=
                        noDT_pyGetD hpairs "anyOf" rfl
                      cases hc : pyChoiceJ (pyGetD m "anyOf" JVal.null) rng with
                      | error e => rfl
                      | ok p =>
                        obtain ⟨option, r2⟩ := p
                        exact hg option (pyChoiceJ_noDT hav hc) r2
                    · simp only [if_neg hany]

theorem genValueF_det : ∀ (fuel : Nat) (schema : JVal) (rng : PyRng) (depth : Nat)
    (t1 t2 : String), noDT schema = true →
    genValueF fuel schema rng depth t1 = genValueF fuel schema rng depth t2 := by
  intro fuel
  induction fuel with
  | zero => intro schema rng depth t1 t2 _; rfl
  | succ fuel ih =>
    intro schema rng depth t1 t2 h
    simp only [genValueF]
    delta genValueStep
    by_cases hd : depth > 8
    · simp only [if_pos hd]
    · simp only [if_neg hd]
      cases schema with
      | null => rfl
      | b y => rfl
      | i n => rfl
      | f q => rfl
      | s str => rfl
      | arr items =>
        have hl : noDTList items = true := by simpa [noDT] using h
        dsimp only
        rw [genSeq_congr (fun sub r => genValueF fuel sub r (depth + 1) t1)
              (fun sub r => genValueF fuel sub r (depth + 1) t2) items
              (fun x hx r => ih x r (depth + 1) t1 t2 (noDTList_mem hl x hx)) rng]
      | obj m =>
        dsimp only
        exact genObjBranch_det _ _ m rng t1 t2 h
          (fun x hx r => ih x r (depth + 1) t1 t2 hx)

/-- C1 (counterexample): `generate_data_from_schema` is NOT a function of
schema and seed alone.  For the schema
`\x7b"type": "string", "format": "date-time"\x7d` the generator returns
`datetime.now(timezone.utc).isoformat()` (the `now` argument of the
embedding), so two calls with equal schema and seed but different wall
clocks return different values. -/
theorem C1_counterexample :
    generateDataFromSchema
      (JVal.obj [("type", JVal.s "string"), ("format", JVal.s "date-time")]) 0
      "2024-01-01T00:00:00+00:00" =
      Except.ok (JVal.s "2024-01-01T00:00:00+00:00") ∧
    generateDataFromSchema
      (JVal.obj [("type", JVal.s "string"), ("format", JVal.s "date-time")]) 0
      "2024-06-01T12:00:00+00:00" =
      Except.ok (JVal.s "2024-06-01T12:00:00+00:00") ∧
    generateDataFromSchema
      (JVal.obj [("type", JVal.s "string"), ("format", JVal.s "date-time")]) 0
      "2024-01-01T00:00:00+00:00" ≠
    generateDataFromSchema
      (JVal.obj [("type", JVal.s "string"), ("format", JVal.s "date-time")]) 0
      "2024-06-01T12:00:00+00:00" := by
  refine ⟨rfl, rfl, ?_⟩
  intro h
  have h1 : generateDataFromSchema
      (JVal.obj [("type", JVal.s "string"), ("format", JVal.s "date-time")]) 0
      "2024-01-01T00:00:00+00:00" =
      Except.ok (JVal.s "2024-01-01T00:00:00+00:00") := rfl
  have h2 : generateDataFromSchema
      (JVal.obj [("type", JVal.s "string"), ("format", JVal.s "date-time")]) 0
      "2024-06-01T12:00:00+00:00" =
      Except.ok (JVal.s "2024-06-01T12:00:00+00:00") := rfl
  rw [h1, h2] at h
  injection h with h3
  injection h3 with h4
  exact absurd h4 (by decide)

/-- C1 (amended): the generator is deterministic — a function of schema
and seed alone — for every schema with no `type: string` /
`format: date-time` object anywhere inside it (`noDT`); for date-time
string schemas the output additionally depends on the wall clock
(see the counterexample). -/
theorem C1_generator_determinism (schema : JVal) (seed : Int) (t1 t2 : String)
    (h : noDT schema = true) :
    generateDataFromSchema schema seed t1 = generateDataFromSchema schema seed t2 := by
  rw [generateDataFromSchema, generateDataFromSchema,
    genValueF_det 10 schema (PyRng.ofSeed seed) 0 t1 t2 h]

theorem C1_generator_determinism_witness :
    noDT (JVal.obj [("type", JVal.s "object"),
      ("properties", JVal.obj [("a", JVal.obj [("type", JVal.s "integer")]),
        ("b", JVal.obj [("type", JVal.s "string")])])]) = true ∧
    generateDataFromSchema
      (JVal.obj [("type", JVal.s "object"),
        ("properties", JVal.obj [("a", JVal.obj [("type", JVal.s "integer")]),
          ("b", JVal.obj [("type", JVal.s "string")])])]) 7 "2024-01-01T00:00:00" =
    generateDataFromSchema
      (JVal.obj [("type", JVal.s "object"),
        ("properties", JVal.obj [("a", JVal.obj [("type", JVal.s "integer")]),
          ("b", JVal.obj [("type", JVal.s "string")])])]) 7 "2099-12-31T23:59:59" :=
  ⟨rfl, C1_generator_determinism _ 7 _ _ rfl⟩

/-! ## The stateless extract run (`testing_utils/extract.py`, claim C4) -/

/-- A stored file of the fake files namespace: name, raw content bytes
and the fingerprint recorded at store time. -/
structure StoredFileE where
  name : Option String
  content : List Nat
  sha256 : String

/-- `FakeFilesNamespace._build_file` (files.py), restricted to the fields
relevant here: the stored fingerprint is `fingerprint_file(content, name)`. -/
def buildStoredFile (name : String) (content : List Nat) : StoredFileE :=
  ⟨some name, content, fingerprintFile content (some name)⟩

/-- `FakeExtractNamespace._generate_run_data(schema, file_hash)`:
`generate_data_from_schema(schema, combined_seed(file_hash, hash_schema(schema)))`. -/
def generateRunData (schema : JVal) (fileHash : String) (now : String) :
    Except String JVal :=
  generateDataFromSchema schema (combinedSeed [fileHash, hashSchema schema]) now

/-- The run-data computation of `_handle_stateless_run`: `run_data` is
`_generate_run_data(data_schema, file_info.sha256)`, then overridden by a
matched stub's data when that is not `None` (`stubData`); `none` models
"no stub matches the request". -/
def statelessRunData (schema : JVal) (fileInfo : StoredFileE)
    (stubData : Option JVal) (now : String) : Except String JVal :=
  match stubData with
  | some d => Except.ok d
  | none => generateRunData schema fileInfo.sha256 now

/-- Determinism of the wrapper for `noDT` schemas (shared helper). -/
theorem generateDataFromSchema_det (schema : JVal) (seed : Int) (t1 t2 : String)
    (h : noDT schema = true) :
    generateDataFromSchema schema seed t1 = generateDataFromSchema schema seed t2 := by
  rw [generateDataFromSchema, generateDataFromSchema,
    genValueF_det 10 schema (PyRng.ofSeed seed) 0 t1 t2 h]

/-- C4 (amended): with no matching stub, the created run's data is
`generate_data_from_schema(schema, combined_seed(fingerprint_file(content, name),
hash_schema(schema)))`; and for schemas free of the `date-time` string
branch (`noDT`) two runs over files with equal content and name and an
equal schema produce equal extracted data.  (Without `noDT` the corollary
fails: see the counterexample.) -/
theorem C4_stateless_run_data (schema : JVal) (name : String) (content : List Nat)
    (now1 now2 : String) (h : noDT schema = true) :
    statelessRunData schema (buildStoredFile name content) none now1 =
      generateDataFromSchema schema
        ((combinedSeed [fingerprintFile content (some name), hashSchema schema] : Nat) : Int)
        now1 ∧
    statelessRunData schema (buildStoredFile name content) none now1 =
      statelessRunData schema (buildStoredFile name content) none now2 := by
  constructor
  · rfl
  · show generateRunData schema (buildStoredFile name content).sha256 now1 =
      generateRunData schema (buildStoredFile name content).sha256 now2
    rw [generateRunData, generateRunData]
    exact generateDataFromSchema_det _ _ now1 now2 h

theorem C4_stateless_run_data_witness :
    noDT (JVal.obj [("type", JVal.s "integer")]) = true ∧
    (statelessRunData (JVal.obj [("type", JVal.s "integer")])
        (buildStoredFile "doc.pdf" [37, 13]) none "2024-01-01T00:00:00" =
      generateDataFromSchema (JVal.obj [("type", JVal.s "integer")])
        ((combinedSeed [fingerprintFile [37, 13] (some "doc.pdf"),
          hashSchema (JVal.obj [("type", JVal.s "integer")])] : Nat) : Int)
        "2024-01-01T00:00:00" ∧
    statelessRunData (JVal.obj [("type", JVal.s "integer")])
        (buildStoredFile "doc.pdf" [37, 13]) none "2024-01-01T00:00:00" =
      statelessRunData (JVal.obj [("type", JVal.s "integer")])
        (buildStoredFile "doc.pdf" [37, 13]) none "2099-06-30T00:00:00") :=
  ⟨rfl, C4_stateless_run_data (JVal.obj [("type", JVal.s "integer")]) "doc.pdf"
    [37, 13] "2024-01-01T00:00:00" "2099-06-30T00:00:00" rfl⟩

set_option maxRecDepth 400000 in
/-- C4 (counterexample): the unconditional corollary "two runs over files
with equal content and name and an equal schema produce equal extracted
data" fails for a `date-time` string schema — with no stub and equal
file and schema, the run data embeds the wall-clock timestamp. -/
theorem C4_counterexample :
    statelessRunData (JVal.obj [("type", JVal.s "string"), ("format", JVal.s "date-time")])
        (buildStoredFile "doc.pdf" [37, 13]) none "2024-01-01T00:00:00+00:00" =
      Except.ok (JVal.s "2024-01-01T00:00:00+00:00") ∧
    statelessRunData (JVal.obj [("type", JVal.s "string"), ("format", JVal.s "date-time")])
        (buildStoredFile "doc.pdf" [37, 13]) none "2024-06-01T12:00:00+00:00" =
      Except.ok (JVal.s "2024-06-01T12:00:00+00:00") ∧
    statelessRunData (JVal.obj [("type", JVal.s "string"), ("format", JVal.s "date-time")])
        (buildStoredFile "doc.pdf" [37, 13]) none "2024-01-01T00:00:00+00:00" ≠
    statelessRunData (JVal.obj [("type", JVal.s "string"), ("format", JVal.s "date-time")])
        (buildStoredFile "doc.pdf" [37, 13]) none "2024-06-01T12:00:00+00:00" := by
  refine ⟨rfl, rfl, ?_⟩
  intro h
  have h1 : statelessRunData (JVal.obj [("type", JVal.s "string"),
      ("format", JVal.s "date-time")])
      (buildStoredFile "doc.pdf" [37, 13]) none "2024-01-01T00:00:00+00:00" =
      Except.ok (JVal.s "2024-01-01T00:00:00+00:00") := rfl
  have h2 : statelessRunData (JVal.obj [("type", JVal.s "string"),
      ("format", JVal.s "date-time")])
      (buildStoredFile "doc.pdf" [37, 13]) none "2024-06-01T12:00:00+00:00" =
      Except.ok (JVal.s "2024-06-01T12:00:00+00:00") := rfl
  rw [h1, h2] at h
  injection h with h3
  injection h3 with h4
  exact absurd h4 (by decide)

/-! ## File metadata for unknown ids (`testing_utils/files.py`, claim C9)

`_handle_get_metadata` falls back on `is_valid_uuidv4`, which calls
CPython `uuid.UUID(s, version=4)` and reports whether it raises
`ValueError`.  The constructor normalises the string
(`replace("urn:", "").replace("uuid:", "")`, `strip("\x7b\x7d")`,
`replace("-", "")`), requires 32 remaining characters, parses them with
`int(hex, 16)` and checks `0 <= value < 2 ** 128`; `version=4` only
forces bits and never fails.  `int(_, 16)` is embedded with its CPython
surface syntax — surrounding whitespace, an optional sign, an optional
`0x`/`0X` prefix, and single underscores between digits (or right after
the prefix) — over ASCII characters. -/

/-- Python `str.replace(pat, repl)` on character lists: non-overlapping,
left to right (fuelled by the list length; `pat` is nonempty here). -/
def replaceAllGo (pat repl : List Char) : Nat → List Char → List Char
  | 0, l => l
  | fuel + 1, l =>
    match l with
    | [] => []
    | c :: cs =>
      if pat ≠ [] ∧ List.isPrefixOf pat (c :: cs) then
        repl ++ replaceAllGo pat repl fuel (List.drop pat.length (c :: cs))
      else c :: replaceAllGo pat repl fuel cs
termination_by structural fuel _ => fuel

/-- Python `s.replace(pat, repl)`. -/
def strReplace (s pat repl : String) : String :=
  String.mk (replaceAllGo pat.data repl.data s.data.length s.data)

/-- A character stripped by `str.strip("\x7b\x7d")`. -/
def isBraceChar (c : Char) : Bool := c == Char.ofNat 123 || c == Char.ofNat 125

/-- Python `s.strip("\x7b\x7d")`: braces removed from both ends. -/
def stripBraces (l : List Char) : List Char :=
  ((l.dropWhile isBraceChar).reverse.dropWhile isBraceChar).reverse

/-- ASCII whitespace accepted around `int()` literals. -/
def isPyWs (c : Char) : Bool :=
  c == ' ' || c == Char.ofNat 9 || c == Char.ofNat 10 || c == Char.ofNat 13 ||
  c == Char.ofNat 11 || c == Char.ofNat 12

/-- ASCII hexadecimal digit. -/
def isHexChar (c : Char) : Bool :=
  (decide ('0' ≤ c) && decide (c ≤ '9')) ||
  (decide ('a' ≤ c) && decide (c ≤ 'f')) ||
  (decide ('A' ≤ c) && decide (c ≤ 'F'))

/-- Value of an ASCII hexadecimal digit. -/
def hexCharVal (c : Char) : Nat :=
  if c.toNat ≥ 97 then c.toNat - 87
  else if c.toNat ≥ 65 then c.toNat - 55
  else c.toNat - 48

/-- Digits after the first: hex digits with single underscores between
them. -/
def parseHexRun : Nat → List Char → Option Nat
  | acc, [] => some acc
  | acc, c :: cs =>
    if isHexChar c then parseHexRun (16 * acc + hexCharVal c) cs
    else if c == '_' then
      match cs with
      | d :: ds => if isHexChar d then parseHexRun (16 * acc + hexCharVal d) ds else none
      | [] => none
    else none
termination_by structural _ l => l

/-- A nonempty run of hex digits; an underscore may lead only right after
a `0x` prefix. -/
def parseHexBody (afterPrefix : Bool) (l : List Char) : Option Nat :=
  match l with
  | [] => none
  | c :: cs =>
    if isHexChar c then parseHexRun (hexCharVal c) cs
    else if afterPrefix && c == '_' then
      match cs with
      | d :: ds => if isHexChar d then parseHexRun (hexCharVal d) ds else none
      | [] => none
    else none

/-- CPython `int(s, 16)` as a partial function (ASCII surface syntax). -/
def pyIntHex (s : String) : Option Int :=
  let l1 := s.data.dropWhile isPyWs
  let l2 := (l1.reverse.dropWhile isPyWs).reverse
  let signed : Int × List Char :=
    match l2 with
    | '+' :: rest => (1, rest)
    | '-' :: rest => (-1, rest)
    | _ => (1, l2)
  let body := signed.2
  let digits :=
    match body with
    | '0' :: c :: rest =>
      if c == 'x' || c == 'X' then parseHexBody true rest
      else parseHexBody false body
    | _ => parseHexBody false body
  digits.map (fun n => signed.1 * (n : Int))

/-- `is_valid_uuidv4(s)` (`_deterministic.py`): whether
`uuid.UUID(s, version=4)` succeeds. -/
def isValidUuidv4 (s : String) : Bool :=
  let h1 := strReplace s "urn:" ""
  let h2 := strReplace h1 "uuid:" ""
  let h3 := stripBraces h2.data
  let h4 := h3.filter (fun c => !(c == '-'))
  if h4.length = 32 then
    match pyIntHex (String.mk h4) with
    | some n => decide (0 ≤ n ∧ n < 2 ^ 128)
    | none => false
  else false

/-- `FakeFilesNamespace._handle_get_metadata`: result is the HTTP status,
the store after the request, and the returned file, if any. -/
def handleGetMetadata (files : List (String × StoredFileE)) (fileId : String) :
    Except String (Nat × List (String × StoredFileE) × Option StoredFileE) :=
  match files.find? (fun kv => kv.1 = fileId) with
  | some kv => .ok (200, files, some kv.2)
  | none =>
    if isValidUuidv4 fileId then do
      let blob ← genTextBlob 0 3
      let fl := buildStoredFile ("file-" ++ fileId ++ ".pdf") (utf8Bytes blob)
      .ok (200, files ++ [(fileId, fl)], some fl)
    else .ok (404, files, none)

/-- C9: fetching metadata for an id absent from the store returns 404
when the id is not a valid UUIDv4 string, but when it parses as a UUIDv4
the fake server fabricates a file named `file-<id>.pdf` whose content is
the seed-0 generated text blob, appends it to the store, and returns it
with status 200. -/
theorem C9_get_metadata_unknown_id (files : List (String × StoredFileE))
    (fileId : String)
    (habs : files.find? (fun kv => kv.1 = fileId) = none) :
    (isValidUuidv4 fileId = false →
      handleGetMetadata files fileId = .ok (404, files, none)) ∧
    (isValidUuidv4 fileId = true →
      ∃ blob, genTextBlob 0 3 = .ok blob ∧
        handleGetMetadata files fileId =
          .ok (200,
            files ++ [(fileId,
              buildStoredFile ("file-" ++ fileId ++ ".pdf") (utf8Bytes blob))],
            some (buildStoredFile ("file-" ++ fileId ++ ".pdf") (utf8Bytes blob)))) := by
  constructor
  · intro hinv
    rw [handleGetMetadata, habs]
    simp only [hinv, Bool.false_eq_true, if_false]
  · intro hval
    obtain ⟨blob, hblob⟩ : ∃ b, genTextBlob 0 3 = Except.ok b := ⟨_, rfl⟩
    refine ⟨blob, hblob, ?_⟩
    rw [handleGetMetadata, habs]
    simp only [hval, if_true]
    rw [hblob]
    rfl

set_option maxRecDepth 400000 in
theorem C9_get_metadata_unknown_id_witness :
    (List.find? (fun kv => kv.1 = "12345678-1234-4678-9234-567812345678")
      ([] : List (String × StoredFileE)) = none) ∧
    isValidUuidv4 "12345678-1234-4678-9234-567812345678" = true ∧
    isValidUuidv4 "not-a-uuid" = false ∧
    ((isValidUuidv4 "12345678-1234-4678-9234-567812345678" = false →
      handleGetMetadata [] "12345678-1234-4678-9234-567812345678" =
        .ok (404, [], none)) ∧
    (isValidUuidv4 "12345678-1234-4678-9234-567812345678" = true →
      ∃ blob, genTextBlob 0 3 = .ok blob ∧
        handleGetMetadata [] "12345678-1234-4678-9234-567812345678" =
          .ok (200,
            [] ++ [("12345678-1234-4678-9234-567812345678",
              buildStoredFile ("file-" ++ "12345678-1234-4678-9234-567812345678" ++ ".pdf")
                (utf8Bytes blob))],
            some (buildStoredFile
              ("file-" ++ "12345678-1234-4678-9234-567812345678" ++ ".pdf")
              (utf8Bytes blob))))) :=
  ⟨rfl, rfl, rfl,
    C9_get_metadata_unknown_id [] "12345678-1234-4678-9234-567812345678" rfl⟩

/-! ## The request router (`testing_utils/server.py`, claim C7)

`_register_route(method, base, path, handler)` keys the route on the
method plus either the exact URL `_build_url(base, path)` (no `\x7b` in
`path`) or the regex `^re.escape(base.rstrip("/")) +
re.sub(r"\\\x7b[^/]+\\\x7d", r"[^/]+", path) + (\\?.*)?$`.  The regex is
embedded as a syntax tree: `re.escape` makes every character of the base
literal; `re.sub` is a left-to-right non-overlapping scan whose pattern
greedily matches from a `\x7b` to the last `\x7d` of the following
slash-free run (at least one character in between); route paths contain
no other regex metacharacters, so their remaining characters are literal.
The respx lookups are modelled as: `url=...` decomposes the URL and,
since the registered URLs carry no query, constrains only the part
before any `?` — the request's query string is unconstrained;
`url__regex=...` matches the anchored pattern against the whole URL
string; `method=...` compares the method strings. -/

/-- One token of the path pattern after `re.sub`: a literal character or
a `[^/]+` placeholder. -/
inductive Tok where
  | lit : Char → Tok
  | param : Tok
deriving Repr

/-- The `re` match of `\x7b[^/]+\x7d` starting just after a `\x7b`:
greedily take the slash-free run, backtrack to its last `\x7d` (at least
one character after the `\x7b`); returns the characters following the
match. -/
def braceMatch (cs : List Char) : Option (List Char) :=
  let r := cs.takeWhile (fun x => !(x == '/'))
  match (r.reverse.findIdx? (fun x => x == Char.ofNat 125)) with
  | some j =>
    let k := r.length - 1 - j
    if k ≥ 1 then some (cs.drop (k + 1)) else none
  | none => none

/-- `re.sub(r"\\\x7b[^/]+\\\x7d", r"[^/]+", path)` as tokenisation:
left-to-right, non-overlapping (fuelled by the length). -/
def pathToksGo : Nat → List Char → List Tok
  | 0, l => l.map Tok.lit
  | fuel + 1, [] => []
  | fuel + 1, c :: cs =>
    if c = Char.ofNat 123 then
      match braceMatch cs with
      | some rest => Tok.param :: pathToksGo fuel rest
      | none => Tok.lit c :: pathToksGo fuel cs
    else Tok.lit c :: pathToksGo fuel cs
termination_by structural fuel _ => fuel

/-- Tokenised path pattern. -/
def pathToks (path : String) : List Tok := pathToksGo path.data.length path.data

/-- Python `s.rstrip("/")`. -/
def rstripSlashes (s : String) : String :=
  String.mk ((s.data.reverse.dropWhile (fun c => c == '/')).reverse)

/-- `_build_url(base, path)`: strip trailing slashes from the base,
ensure the path has a leading slash, concatenate. -/
def buildUrl (base path : String) : String :=
  rstripSlashes base ++
    (match path.data with
     | '/' :: _ => path
     | _ => "/" ++ path)

/-- Regular expressions over characters, as needed by the compiled route
pattern. -/
inductive Re where
  | eps : Re
  | cls : (Char → Bool) → Re
  | seq : Re → Re → Re
  | alt : Re → Re → Re
  | star : Re → Re

/-- The usual language semantics of a regular expression. -/
inductive Matches : Re → List Char → Prop where
  | eps : Matches Re.eps []
  | cls {p : Char → Bool} {c : Char} : p c = true → Matches (Re.cls p) [c]
  | seq {a b : Re} {s t : List Char} :
      Matches a s → Matches b t → Matches (Re.seq a b) (s ++ t)
  | altL {a b : Re} {s : List Char} : Matches a s → Matches (Re.alt a b) s
  | altR {a b : Re} {s : List Char} : Matches b s → Matches (Re.alt a b) s
  | starNil {a : Re} : Matches (Re.star a) []
  | starCons {a : Re} {s t : List Char} :
      Matches a s → Matches (Re.star a) t → Matches (Re.star a) (s ++ t)

/-- A sequence of literal characters (`re.escape` of the base URL). -/
def litStr (l : List Char) : Re :=
  l.foldr (fun c acc => Re.seq (Re.cls (fun x => x == c)) acc) Re.eps

/-- `[^/]+`. -/
def paramRe : Re :=
  Re.seq (Re.cls (fun c => !(c == '/'))) (Re.star (Re.cls (fun c => !(c == '/'))))

/-- A path token as a regex. -/
def tokRe : Tok → Re
  | Tok.lit c => Re.cls (fun x => x == c)
  | Tok.param => paramRe

/-- The token list as a regex. -/
def toksRe (toks : List Tok) : Re :=
  toks.foldr (fun t acc => Re.seq (tokRe t) acc) Re.eps

/-- `(\\?.*)?` — an optional query: `?` then any characters but a
newline (`.` without `DOTALL`). -/
def queryRe : Re :=
  Re.alt Re.eps
    (Re.seq (Re.cls (fun c => c == '?'))
      (Re.star (Re.cls (fun c => !(c == Char.ofNat 10)))))

/-- `_compile_regex(base, path)`: the anchored pattern
`^escaped-base regex-path (\\?.*)?$` as a syntax tree. -/
def compileRoutePattern (base path : String) : Re :=
  Re.seq (litStr (rstripSlashes base).data)
    (Re.seq (toksRe (pathToks path)) queryRe)

/-- Whether the raw path contains a `\x7b` (the routing mode switch of
`_register_route`). -/
def hasBrace (path : String) : Bool := path.data.contains (Char.ofNat 123)

/-- The request URL up to (excluding) its first `?`: the part respx's
`url=` lookup constrains when the registered URL has no query. -/
def stripQuery (url : String) : String :=
  String.mk (url.data.takeWhile (fun c => !(c == '?')))

/-- `_register_route`: the set of requests a registered route matches —
the method must equal the registered one, and the URL matches the
compiled regex (placeholder paths) or, for the `url=` lookup of a
query-less registered URL, equals the built URL once its own query
string is stripped. -/
def routeMatches (method base path reqMethod url : String) : Prop :=
  reqMethod = method ∧
  (if hasBrace path = true then Matches (compileRoutePattern base path) url.data
   else stripQuery url = buildUrl base path)

theorem matches_eps_iff {s : List Char} : Matches Re.eps s ↔ s = [] := by
  constructor
  · intro h; cases h; rfl
  · intro h; subst h; exact Matches.eps

theorem matches_cls_iff {p : Char → Bool} {s : List Char} :
    Matches (Re.cls p) s ↔ ∃ c, s = [c] ∧ p c = true := by
  constructor
  · intro h
    cases h with
    | cls hpc => exact ⟨_, rfl, hpc⟩
  · rintro ⟨c, rfl, hpc⟩
    exact Matches.cls hpc

theorem matches_seq_iff {a b : Re} {s : List Char} :
    Matches (Re.seq a b) s ↔ ∃ u v, Matches a u ∧ Matches b v ∧ s = u ++ v := by
  constructor
  · intro h
    cases h with
    | seq h1 h2 => exact ⟨_, _, h1, h2, rfl⟩
  · rintro ⟨u, v, h1, h2, rfl⟩
    exact Matches.seq h1 h2

theorem matches_alt_iff {a b : Re} {s : List Char} :
    Matches (Re.alt a b) s ↔ Matches a s ∨ Matches b s := by
  constructor
  · intro h
    cases h with
    | altL h1 => exact Or.inl h1
    | altR h2 => exact Or.inr h2
  · rintro (h1 | h2)
    · exact Matches.altL h1
    · exact Matches.altR h2

theorem matches_star_cls {p : Char → Bool} {s : List Char} :
    Matches (Re.star (Re.cls p)) s ↔ ∀ x ∈ s, p x = true := by
  constructor
  · intro h
    generalize hr : Re.star (Re.cls p) = r at h
    induction h with
    | eps => cases hr
    | cls hpc => cases hr
    | seq h1 h2 ih1 ih2 => cases hr
    | altL h1 ih1 => cases hr
    | altR h2 ih2 => cases hr
    | starNil => intro x hx; exact absurd hx (List.not_mem_nil x)
    | starCons h1 h2 ih1 ih2 =>
      injection hr with ha
      subst ha
      intro x hx
      rcases List.mem_append.mp hx with hxu | hxt
      · cases h1 with
        | cls hpc =>
          rw [List.mem_singleton.mp hxu]
          exact hpc
      · exact ih2 rfl x hxt
  · intro hall
    induction s with
    | nil => exact Matches.starNil
    | cons c cs ih =>
      have : ([c] ++ cs : List Char) = c :: cs := rfl
      rw [← this]
      exact Matches.starCons (Matches.cls (hall c (List.mem_cons_self c cs)))
        (ih (fun x hx => hall x (List.mem_cons_of_mem c hx)))

theorem matches_litStr {l s : List Char} : Matches (litStr l) s ↔ s = l := by
  induction l generalizing s with
  | nil =>
    rw [show litStr [] = Re.eps from rfl]
    exact matches_eps_iff
  | cons c l2 ih =>
    rw [show litStr (c :: l2) = Re.seq (Re.cls (fun x => x == c)) (litStr l2) from rfl]
    rw [matches_seq_iff]
    constructor
    · rintro ⟨u, v, hu, hv, rfl⟩
      rw [matches_cls_iff] at hu
      obtain ⟨d, rfl, hd⟩ := hu
      rw [ih] at hv
      subst hv
      have hdc : d = c := by simpa using hd
      rw [hdc]
      rfl
    · rintro rfl
      refine ⟨[c], l2, ?_, ?_, rfl⟩
      · rw [matches_cls_iff]
        exact ⟨c, rfl, by simp⟩
      · rw [ih]

/-- What a path token denotes: a literal character, or a nonempty
slash-free string. -/
def TokStr : Tok → List Char → Prop
  | Tok.lit c, s => s = [c]
  | Tok.param, s => s ≠ [] ∧ ∀ x ∈ s, x ≠ '/'

/-- What a token list denotes: the concatenation of its tokens'
denotations. -/
def ToksStr : List Tok → List Char → Prop
  | [], s => s = []
  | t :: ts, s => ∃ u v, TokStr t u ∧ ToksStr ts v ∧ s = u ++ v

/-- What the optional query suffix denotes: empty, or a `?` followed by
newline-free characters. -/
def QueryStr (s : List Char) : Prop :=
  s = [] ∨ ∃ rest, s = '?' :: rest ∧ ∀ x ∈ rest, x ≠ Char.ofNat 10

theorem matches_paramRe {s : List Char} :
    Matches paramRe s ↔ s ≠ [] ∧ ∀ x ∈ s, x ≠ '/' := by
  rw [paramRe, matches_seq_iff]
  constructor
  · rintro ⟨u, v, hu, hv, rfl⟩
    rw [matches_cls_iff] at hu
    obtain ⟨c, rfl, hc⟩ := hu
    rw [matches_star_cls] at hv
    refine ⟨by simp, ?_⟩
    intro x hx
    rcases List.mem_cons.mp hx with hx1 | hx2
    · subst hx1; simpa using hc
    · simpa using hv x hx2
  · rintro ⟨hne, hall⟩
    cases s with
    | nil => exact absurd rfl hne
    | cons c cs =>
      refine ⟨[c], cs, ?_, ?_, rfl⟩
      · rw [matches_cls_iff]
        exact ⟨c, rfl, by simpa using hall c (List.mem_cons_self c cs)⟩
      · rw [matches_star_cls]
        intro x hx
        simpa using hall x (List.mem_cons_of_mem c hx)

theorem matches_tokRe {t : Tok} {s : List Char} :
    Matches (tokRe t) s ↔ TokStr t s := by
  cases t with
  | lit c =>
    rw [show tokRe (Tok.lit c) = Re.cls (fun x => x == c) from rfl, matches_cls_iff]
    constructor
    · rintro ⟨d, rfl, hd⟩
      have : d = c := by simpa using hd
      rw [this]
      rfl
    · intro h
      rw [show TokStr (Tok.lit c) s = (s = [c]) from rfl] at h
      subst h
      exact ⟨c, rfl, by simp⟩
  | param =>
    rw [show tokRe Tok.param = paramRe from rfl]
    exact matches_paramRe

theorem matches_toksRe {toks : List Tok} {s : List Char} :
    Matches (toksRe toks) s ↔ ToksStr toks s := by
  induction toks generalizing s with
  | nil =>
    rw [show toksRe [] = Re.eps from rfl]
    exact matches_eps_iff
  | cons t ts ih =>
    rw [show toksRe (t :: ts) = Re.seq (tokRe t) (toksRe ts) from rfl, matches_seq_iff]
    constructor
    · rintro ⟨u, v, hu, hv, rfl⟩
      exact ⟨u, v, matches_tokRe.mp hu, ih.mp hv, rfl⟩
    · rintro ⟨u, v, hu, hv, rfl⟩
      exact ⟨u, v, matches_tokRe.mpr hu, ih.mpr hv, rfl⟩

theorem matches_queryRe {s : List Char} : Matches queryRe s ↔ QueryStr s := by
  rw [queryRe, matches_alt_iff]
  constructor
  · rintro (h | h)
    · exact Or.inl (matches_eps_iff.mp h)
    · rw [matches_seq_iff] at h
      obtain ⟨u, v, hu, hv, rfl⟩ := h
      rw [matches_cls_iff] at hu
      obtain ⟨c, rfl, hc⟩ := hu
      rw [matches_star_cls] at hv
      refine Or.inr ⟨v, ?_, ?_⟩
      · have : c = '?' := by simpa using hc
        rw [this]
        rfl
      · intro x hx
        simpa using hv x hx
  · rintro (rfl | ⟨rest, rfl, hrest⟩)
    · exact Or.inl Matches.eps
    · refine Or.inr ?_
      rw [matches_seq_iff]
      refine ⟨['?'], rest, ?_, ?_, rfl⟩
      · rw [matches_cls_iff]
        exact ⟨'?', rfl, by simp⟩
      · rw [matches_star_cls]
        intro x hx
        simpa using hrest x hx

theorem matches_route_iff {base path : String} {u : List Char} :
    Matches (compileRoutePattern base path) u ↔
      ∃ mid q, ToksStr (pathToks path) mid ∧ QueryStr q ∧
        u = (rstripSlashes base).data ++ (mid ++ q) := by
  rw [compileRoutePattern, matches_seq_iff]
  constructor
  · rintro ⟨b, rest, hb, hrest, rfl⟩
    rw [matches_litStr] at hb
    subst hb
    rw [matches_seq_iff] at hrest
    obtain ⟨mid, q, hmid, hq, rfl⟩ := hrest
    exact ⟨mid, q, matches_toksRe.mp hmid, matches_queryRe.mp hq, rfl⟩
  · rintro ⟨mid, q, hmid, hq, rfl⟩
    refine ⟨(rstripSlashes base).data, mid ++ q, matches_litStr.mpr rfl, ?_, rfl⟩
    rw [matches_seq_iff]
    exact ⟨mid, q, matches_toksRe.mpr hmid, matches_queryRe.mpr hq, rfl⟩

/-- Sanity: tokenising a realistic placeholder path. -/
theorem pathToks_sample :
    pathToks "/files/\x7bfile_id\x7d/x" =
      [Tok.lit '/', Tok.lit 'f', Tok.lit 'i', Tok.lit 'l', Tok.lit 'e',
       Tok.lit 's', Tok.lit '/', Tok.param, Tok.lit '/', Tok.lit 'x'] := by
  rfl

theorem takeWhile_all {p : Char → Bool} :
    ∀ {t : List Char}, (∀ c ∈ t, p c = true) → t.takeWhile p = t := by
  intro t
  induction t with
  | nil => intro _; rfl
  | cons a ts ih =>
    intro h
    rw [List.takeWhile_cons, if_pos (h a (List.mem_cons_self a ts))]
    rw [ih (fun c hc => h c (List.mem_cons_of_mem a hc))]

theorem takeWhile_append_stop {p : Char → Bool} {c : Char} {q : List Char}
    (hc : p c = false) :
    ∀ {t : List Char}, (∀ x ∈ t, p x = true) → (t ++ c :: q).takeWhile p = t := by
  intro t
  induction t with
  | nil =>
    intro _
    rw [List.nil_append, List.takeWhile_cons, hc]
    rfl
  | cons a ts ih =>
    intro h
    rw [List.cons_append, List.takeWhile_cons, if_pos (h a (List.mem_cons_self a ts))]
    rw [ih (fun x hx => h x (List.mem_cons_of_mem a hx))]

theorem dropWhile_head_false {p : Char → Bool} :
    ∀ {l : List Char} {c : Char} {q : List Char},
      l.dropWhile p = c :: q → p c = false := by
  intro l
  induction l with
  | nil => intro c q h; cases h
  | cons a as ih =>
    intro c q h
    rw [List.dropWhile_cons] at h
    by_cases hpa : p a = true
    · rw [if_pos hpa] at h
      exact ih h
    · rw [if_neg hpa] at h
      injection h with h1 h2
      rw [← h1]
      cases hb : p a with
      | true => exact absurd hb hpa
      | false => rfl

theorem takeWhile_eq_char_iff {p : Char → Bool} {t l : List Char}
    (ht : ∀ c ∈ t, p c = true) :
    l.takeWhile p = t ↔ l = t ∨ ∃ c q, p c = false ∧ l = t ++ c :: q := by
  constructor
  · intro htw
    have hsplit : l.takeWhile p ++ l.dropWhile p = l :=
      List.takeWhile_append_dropWhile _ _
    rw [htw] at hsplit
    cases hdrop : l.dropWhile p with
    | nil =>
      rw [hdrop, List.append_nil] at hsplit
      exact Or.inl hsplit.symm
    | cons c q =>
      rw [hdrop] at hsplit
      exact Or.inr ⟨c, q, dropWhile_head_false hdrop, hsplit.symm⟩
  · rintro (rfl | ⟨c, q, hc, rfl⟩)
    · exact takeWhile_all ht
    · exact takeWhile_append_stop hc ht

theorem stripQuery_eq_iff {target url : String}
    (ht : ∀ c ∈ target.data, c ≠ '?') :
    stripQuery url = target ↔
      url = target ∨ ∃ qs : String, url = target ++ "?" ++ qs := by
  have hp : ∀ c ∈ target.data, (fun c => !(c == '?')) c = true := by
    intro c hc
    simpa using ht c hc
  constructor
  · intro h
    have hdata : url.data.takeWhile (fun c => !(c == '?')) = target.data := by
      have := congrArg String.data h
      simpa [stripQuery] using this
    rcases (takeWhile_eq_char_iff hp).mp hdata with heq | ⟨c, q, hc, heq⟩
    · exact Or.inl (String.ext heq)
    · have hcq : c = '?' := by simpa using hc
      subst hcq
      refine Or.inr ⟨String.mk q, ?_⟩
      apply String.ext
      simpa [String.data_append] using heq
  · rintro (rfl | ⟨qs, rfl⟩)
    · apply String.ext
      simpa [stripQuery] using takeWhile_all hp
    · apply String.ext
      have : (target ++ "?" ++ qs).data = target.data ++ '?' :: qs.data := by
        simp [String.data_append]
      simpa [stripQuery, this] using
        takeWhile_append_stop (by simp) hp

/-- C7 (counterexample): a route registered with a placeholder-free path
does NOT match only the exact base-plus-path URL — respx's `url=` lookup
for a query-less registered URL leaves the request's query string
unconstrained (the plain-route handlers read `request.url.params`), so
the upload route also matches a URL carrying `?project_id=...`. -/
theorem C7_counterexample :
    hasBrace "/api/v1/files" = false ∧
    routeMatches "POST" "https://api.cloud.llamaindex.ai" "/api/v1/files" "POST"
      "https://api.cloud.llamaindex.ai/api/v1/files?project_id=proj-test" ∧
    "https://api.cloud.llamaindex.ai/api/v1/files?project_id=proj-test" ≠
      buildUrl "https://api.cloud.llamaindex.ai" "/api/v1/files" := by
  refine ⟨rfl, ⟨rfl, ?_⟩, ?_⟩
  · show stripQuery "https://api.cloud.llamaindex.ai/api/v1/files?project_id=proj-test" =
      buildUrl "https://api.cloud.llamaindex.ai" "/api/v1/files"
    rfl
  · decide

/-- C7 (amended): a registered route matches exactly the requests with
the registered method and, for a path containing a placeholder, a URL in
the language "base URL (trailing slashes stripped), then the path with
each placeholder replaced by one nonempty slash-free segment, then an
optional `?`-query"; for a path without placeholders, the base-plus-path
URL followed by an arbitrary optional `?`-query (not only the exact
URL: see the counterexample). -/
theorem C7_route_matching (method base path reqMethod url : String)
    (hq : ∀ c ∈ (buildUrl base path).data, c ≠ '?') :
    routeMatches method base path reqMethod url ↔
      (reqMethod = method ∧
        (if hasBrace path = true then
          ∃ mid q, ToksStr (pathToks path) mid ∧ QueryStr q ∧
            url.data = (rstripSlashes base).data ++ (mid ++ q)
         else url = buildUrl base path ∨
           ∃ qs : String, url = buildUrl base path ++ "?" ++ qs)) := by
  rw [routeMatches]
  refine and_congr_right (fun _ => ?_)
  by_cases hb : hasBrace path = true
  · rw [if_pos hb, if_pos hb]
    exact matches_route_iff
  · rw [if_neg hb, if_neg hb]
    exact stripQuery_eq_iff hq

theorem C7_route_matching_witness :
    (∀ c ∈ (buildUrl "https://api.cloud.llamaindex.ai" "/api/v1/files").data, c ≠ '?') ∧
    (routeMatches "POST" "https://api.cloud.llamaindex.ai" "/api/v1/files" "POST"
        "https://api.cloud.llamaindex.ai/api/v1/files?project_id=proj-test" ↔
      ("POST" = "POST" ∧
        (if hasBrace "/api/v1/files" = true then
          ∃ mid q, ToksStr (pathToks "/api/v1/files") mid ∧ QueryStr q ∧
            ("https://api.cloud.llamaindex.ai/api/v1/files?project_id=proj-test" : String).data =
              (rstripSlashes "https://api.cloud.llamaindex.ai").data ++ (mid ++ q)
         else "https://api.cloud.llamaindex.ai/api/v1/files?project_id=proj-test" =
             buildUrl "https://api.cloud.llamaindex.ai" "/api/v1/files" ∨
           ∃ qs : String,
             "https://api.cloud.llamaindex.ai/api/v1/files?project_id=proj-test" =
               buildUrl "https://api.cloud.llamaindex.ai" "/api/v1/files" ++ "?" ++ qs))) :=
  ⟨by decide, C7_route_matching "POST" "https://api.cloud.llamaindex.ai" "/api/v1/files"
    "POST" "https://api.cloud.llamaindex.ai/api/v1/files?project_id=proj-test" (by decide)⟩

end ExtractionReview